import Mathlib

/-!
Verification of the voice-to-xero workflow engine.

This file embeds the session / workflow state machine of the repository
(`app/api/workflow_base/base_session.py`, the invoice and contact
`session_store.py`, the invoice route handlers in
`app/api/invoice_workflow/routes/step_routes.py` and
`routes/workflow_routes.py`, the voice pipeline of `step_handlers.py`
and the credential resolution of `app/api/common/token_auth.py`) as pure
Lean functions, and proves properties of the embedded operations.

Conventions used by the embedding:
* Python `dict`s become insertion-ordered association lists
  (`List (String × α)`): assignment to an existing key replaces the value
  in place, assignment to a new key appends at the end, exactly like a
  CPython dict.
* Timestamps (`datetime.now(UTC)`) become an `Int` number of minutes
  passed explicitly to every mutating operation (`now`); the expiry
  comparison `now - updated_at > timedelta(minutes=30)` becomes
  `now - updated_at > 30`.
* A line item (the dict built by `parse_invoice_data` with description,
  quantity, unit price, account code and VAT rate, the numeric fields
  being Python floats) is an opaque type parameter `Item`: none of the
  session operations inspect the fields of a committed or pending item,
  they only move whole items around, so the embedding is parametric in it.
* Python exceptions become `Except`: `add_line_item` raises `ValueError`
  on capacity, the voice pipeline raises `StepValidationError`.
-/

namespace VoiceToXero

/-- Python-dict style insert: replace in place if the key exists,
append at the end otherwise. -/
def dictInsert {α : Type} (k : String) (v : α) : List (String × α) → List (String × α)
  | [] => [(k, v)]
  | (k', v') :: rest => if k' = k then (k, v) :: rest else (k', v') :: dictInsert k v rest

/-- Python `dict.pop(k, None)`: drop the entry for `k` if present. -/
def dictErase {α : Type} (k : String) : List (String × α) → List (String × α)
  | [] => []
  | (k', v') :: rest => if k' = k then rest else (k', v') :: dictErase k rest

/-- Append a step to a list if it is not already present
(the `if step not in self.completed_steps: append` pattern used by
`mark_step_complete`, `confirm_step`, `confirm_line_item` and
`proceed_to_review`). -/
def appendIfAbsent (step : String) (l : List String) : List String :=
  if step ∈ l then l else l ++ [step]

/-- Parsed structured result of a voice step
(`InvoiceContactNameStep` / `InvoiceDueDateStep` / `InvoiceLineItemStep`
from `invoice_workflow/models.py`). `parse_invoice_data` dispatches on
`hasattr(result, ...)`, which in this closed embedding is a match on the
constructor. The due date carries `due_date.isoformat() if due_date else
None`. -/
inductive InvoiceParse (Item : Type) where
  | contact_name (name : String) (is_organization : Bool)
  | due_date (d : Option String) (days_from_now : Option Int)
  | line_item (item : Item)
  | other
deriving DecidableEq

/-- A value stored in the `workflow_data` dict (string for the contact
name, optional string for the due date, an item dict for the pending
line item). -/
inductive InvVal (Item : Type) where
  | str (v : String)
  | optStr (v : Option String)
  | item (v : Item)
deriving DecidableEq

/-- A value held by the `invoice_data["current_line_item"]` slot (and by
the cells of the `line_items` list): the parsed line-item dict, or a raw
string written by `update_field`'s catch-all branch (which assigns
`invoice_data[field_name] = field_value` for any unrecognized name,
aliasing the reserved keys). -/
inductive SlotVal (Item : Type) where
  | item (i : Item)
  | str (s : String)
deriving DecidableEq

/-- Python truthiness of a slot value: a parsed line-item dict is
nonempty and truthy; a string is truthy iff nonempty. -/
def SlotVal.truthy {Item : Type} : SlotVal Item → Bool
  | .item _ => true
  | .str s => !s.data.isEmpty

/-- The `invoice_data["line_items"]` slot: normally the committed list,
or a raw string after an aliasing `update_field` write. -/
inductive ListVal (Item : Type) where
  | list (l : List (SlotVal Item))
  | str (s : String)
deriving DecidableEq

/-- Python `len()` of the slot (list length, or character count). -/
def ListVal.length {Item : Type} : ListVal Item → Nat
  | .list l => l.length
  | .str s => s.data.length

/-- Python truthiness of the slot (nonempty list or nonempty string). -/
def ListVal.truthy {Item : Type} : ListVal Item → Bool
  | .list l => !l.isEmpty
  | .str s => !s.data.isEmpty

/-- The `invoice_data["address"]` slot: absent, the legacy address
sub-dict, or a raw string written by the catch-all branch. -/
inductive AddrVal where
  | dict (d : List (String × String))
  | str (s : String)
deriving DecidableEq

/-- `InvoiceWorkflowSession` (invoice `session_store.py`) together with
the fields inherited from `BaseWorkflowSession` (`base_session.py`).
The `invoice_data` dict is split into its four fixed keys
(`contact_name`, `due_date`, `line_items`, `current_line_item`) plus
`address_data` for the `"address"` key and `extra_data` for any other
key written by `update_field`; the `line_items`, `current_line_item`
and `address` slots use sum types because `update_field`'s catch-all
branch can overwrite them with raw strings. -/
structure InvoiceWorkflowSession (Item : Type) where
  session_id : String
  current_step : String
  completed_steps : List String
  workflow_data : List (String × InvVal Item)
  step_errors : List (String × String)
  created_at : Int
  updated_at : Int
  contact_name : Option String
  due_date : Option String
  line_items : ListVal Item
  current_line_item : Option (SlotVal Item)
  line_item_count : Nat
  max_line_items : Nat
  has_pending_item : Bool
  transcripts : List (String × String)
  parsed_results : List (String × InvoiceParse Item)
  errors : List (String × String)
  address_data : Option AddrVal
  extra_data : List (String × String)
deriving DecidableEq

/-- Module-level `INVOICE_WORKFLOW_STEPS` constant of the invoice
`session_store.py` (nine entries, including the legacy
`line_item_confirm` and `add_or_review`; not consulted by the session
methods). -/
def INVOICE_WORKFLOW_STEPS : List String :=
  ["welcome", "contact_name", "due_date", "line_item", "line_item_confirm",
   "add_or_review", "review", "final_submit", "complete"]

/-- `InvoiceWorkflowSession.get_workflow_steps`: the ordered step list
actually used by the workflow methods. -/
def get_workflow_steps : List String :=
  ["welcome", "contact_name", "due_date", "line_item", "review", "final_submit", "complete"]

/-- `InvoiceWorkflowSession.get_initial_step`. -/
def get_initial_step : String := "welcome"

/-- `InvoiceWorkflowSession.__init__` (via `BaseWorkflowSession.__init__`):
`session_id or str(uuid.uuid4())` — a `None` or empty id is replaced by a
fresh uuid, modelled by the `freshId` argument. -/
def initInvoiceSession (Item : Type) (sid? : Option String) (freshId : String)
    (now : Int) : InvoiceWorkflowSession Item :=
  { session_id := match sid? with
      | some sid => if sid = "" then freshId else sid
      | none => freshId
    current_step := get_initial_step
    completed_steps := []
    workflow_data := []
    step_errors := []
    created_at := now
    updated_at := now
    contact_name := none
    due_date := none
    line_items := ListVal.list []
    current_line_item := none
    line_item_count := 0
    max_line_items := 10
    has_pending_item := false
    transcripts := []
    parsed_results := []
    errors := []
    address_data := none
    extra_data := [] }

/-- The single-key `invoice_data` delta produced by
`InvoiceWorkflowSession.parse_invoice_data` (an empty dict, or one of
`contact_name`, `due_date`, `current_line_item`). -/
inductive InvoiceDelta (Item : Type) where
  | empty
  | dcontact (name : String)
  | ddue (d : Option String)
  | ditem (i : Item)
deriving DecidableEq

/-- Python truthiness of the `parsed_data` dict: nonempty. -/
def InvoiceDelta.nonempty {Item : Type} : InvoiceDelta Item → Bool
  | .empty => false
  | _ => true

/-- Whether `parsed_data.get("current_line_item")` is truthy. -/
def InvoiceDelta.isItem {Item : Type} : InvoiceDelta Item → Bool
  | .ditem _ => true
  | _ => false

/-- `InvoiceWorkflowSession.parse_invoice_data`: the `if step == ... and
hasattr(result, ...)` chain. -/
def parse_invoice_data {Item : Type} (step : String) (r : InvoiceParse Item) :
    InvoiceDelta Item :=
  if step = "contact_name" then
    match r with
    | .contact_name n _ => .dcontact n
    | _ => .empty
  else if step = "due_date" then
    match r with
    | .due_date d _ => .ddue d
    | _ => .empty
  else if step = "line_item" then
    match r with
    | .line_item i => .ditem i
    | _ => .empty
  else .empty

/-- `self.invoice_data.update(parsed_data)` for the typed fields. -/
def applyDeltaInvoice {Item : Type} (d : InvoiceDelta Item)
    (s : InvoiceWorkflowSession Item) : InvoiceWorkflowSession Item :=
  match d with
  | .empty => s
  | .dcontact n => { s with contact_name := some n }
  | .ddue v => { s with due_date := v }
  | .ditem i => { s with current_line_item := some (SlotVal.item i) }

/-- The dict entries of a delta, for `workflow_data.update(parsed_data)`. -/
def InvoiceDelta.toEntries {Item : Type} : InvoiceDelta Item → List (String × InvVal Item)
  | .empty => []
  | .dcontact n => [("contact_name", .str n)]
  | .ddue v => [("due_date", .optStr v)]
  | .ditem i => [("current_line_item", .item i)]

/-- `dict.update(other)` over the association-list encoding. -/
def wfUpdate {Item : Type} (entries : List (String × InvVal Item))
    (d : List (String × InvVal Item)) : List (String × InvVal Item) :=
  entries.foldl (fun acc kv => dictInsert kv.1 kv.2 acc) d

/-- `BaseWorkflowSession.mark_step_complete` (`base_session.py` lines
73-82): append the step to `completed_steps` if absent, merge the data
into `workflow_data`, refresh `updated_at`, clear the step's error. -/
def mark_step_complete {Item : Type} (now : Int) (step : String)
    (data : InvoiceDelta Item) (s : InvoiceWorkflowSession Item) :
    InvoiceWorkflowSession Item :=
  { s with
    completed_steps := appendIfAbsent step s.completed_steps
    workflow_data := wfUpdate data.toEntries s.workflow_data
    updated_at := now
    step_errors := dictErase step s.step_errors }

/-- `BaseWorkflowSession.advance_step` (`base_session.py` lines 36-45):
move to the next step of the ordered list, or return `none` on the last
step. (`steps.index` would raise `ValueError` for a `current_step` outside
the list; there `indexOf` returns the length and the function degrades to
the terminal no-op — every modelled operation keeps `current_step` inside
the list, see the C1 invariant theorem.) -/
def advance_step_base {Item : Type} (now : Int) (s : InvoiceWorkflowSession Item) :
    InvoiceWorkflowSession Item × Option String :=
  let steps := get_workflow_steps
  let current_idx := steps.indexOf s.current_step
  if current_idx < steps.length - 1 then
    let nxt := steps.getD (current_idx + 1) s.current_step
    ({ s with current_step := nxt, updated_at := now }, some nxt)
  else (s, none)

/-- `InvoiceWorkflowSession.advance_step` (invoice `session_store.py`
lines 68-75): stay on `line_item` while an item is pending, otherwise
defer to the base class. -/
def advance_step {Item : Type} (now : Int) (s : InvoiceWorkflowSession Item) :
    InvoiceWorkflowSession Item × Option String :=
  if s.current_step = "line_item" ∧ s.has_pending_item then (s, some s.current_step)
  else advance_step_base now s

/-- `BaseWorkflowSession.go_to_step` (`base_session.py` lines 56-71):
reject unknown steps; otherwise allow the move iff the target's index is
at most `len(completed_steps)`. -/
def go_to_step_base {Item : Type} (now : Int) (step : String)
    (s : InvoiceWorkflowSession Item) : InvoiceWorkflowSession Item × Bool :=
  let steps := get_workflow_steps
  if step ∉ steps then (s, false)
  else if steps.indexOf step ≤ s.completed_steps.length then
    ({ s with current_step := step, updated_at := now }, true)
  else (s, false)

/-- `InvoiceWorkflowSession.add_line_item` (invoice `session_store.py`
lines 118-126): raise `ValueError` at capacity (`len()` of the slot,
char count if it was clobbered to a string), otherwise append the item,
sync the count, clear the pending item and flag. Appending to a
string-clobbered slot raises `AttributeError` before mutating. -/
def add_line_item {Item : Type} (item : SlotVal Item) (s : InvoiceWorkflowSession Item) :
    Except String (InvoiceWorkflowSession Item) :=
  match s.line_items with
  | .list l =>
      if l.length ≥ s.max_line_items then
        .error ("Maximum " ++ toString s.max_line_items ++ " line items allowed")
      else
        .ok { s with
          line_items := ListVal.list (l ++ [item])
          line_item_count := l.length + 1
          current_line_item := none
          has_pending_item := false }
  | .str str =>
      if str.data.length ≥ s.max_line_items then
        .error ("Maximum " ++ toString s.max_line_items ++ " line items allowed")
      else .error "AttributeError"

/-- `InvoiceWorkflowSession.clear_current_item`. -/
def clear_current_item {Item : Type} (s : InvoiceWorkflowSession Item) :
    InvoiceWorkflowSession Item :=
  { s with current_line_item := none, has_pending_item := false }

/-- `InvoiceWorkflowSession.store_step_result` (invoice
`session_store.py` lines 133-154): record transcript and parsed result,
merge the parsed delta into `invoice_data` and `workflow_data`, set the
pending flag for a parsed line item, and mark the step complete except
for `line_item`. -/
def store_step_result {Item : Type} (now : Int) (step : String)
    (r : InvoiceParse Item) (transcript : String)
    (s : InvoiceWorkflowSession Item) : InvoiceWorkflowSession Item :=
  let s1 := { s with
    transcripts := dictInsert step transcript s.transcripts
    parsed_results := dictInsert step r s.parsed_results }
  let d := parse_invoice_data step r
  let s2 := applyDeltaInvoice d s1
  let s2 := { s2 with workflow_data := wfUpdate d.toEntries s2.workflow_data }
  let s3 := if step = "line_item" ∧ d.isItem then { s2 with has_pending_item := true } else s2
  if d.nonempty ∧ step ≠ "line_item" then mark_step_complete now step d s3 else s3

/-- `InvoiceWorkflowSession.reset` (invoice `session_store.py` lines
258-276). Note: the source resets `current_line_item` (inside the fresh
`invoice_data` dict) but never resets `has_pending_item`. -/
def reset {Item : Type} (now : Int) (s : InvoiceWorkflowSession Item) :
    InvoiceWorkflowSession Item :=
  { s with
    current_step := get_initial_step
    completed_steps := []
    workflow_data := []
    step_errors := []
    contact_name := none
    due_date := none
    line_items := ListVal.list []
    current_line_item := none
    line_item_count := 0
    transcripts := []
    parsed_results := []
    errors := []
    address_data := none
    extra_data := []
    updated_at := now }

/-- A field edit as dispatched by `InvoiceWorkflowSession.update_field`.
A `line_item_{idx}_{field}` edit carries the index and the item-level
modification (the per-field assignment with its float conversions is a
function on the opaque item type); the remaining branches carry the raw
field name and string value. -/
inductive FieldEdit (Item : Type) where
  | line_item_field (idx : Nat) (f : Item → Item)
  | simple (name : String) (value : String)

/-- Legacy address sub-field write (`session_store.py` lines 236-249):
create the `address` sub-dict if absent, then assign the mapped key.
If a catch-all write already clobbered `address` with a string, the
item assignment raises `TypeError` before mutating (the session and its
`updated_at` stay untouched; the route answers 500). -/
def addr_set {Item : Type} (now : Int) (k v : String)
    (s : InvoiceWorkflowSession Item) : InvoiceWorkflowSession Item :=
  match s.address_data with
  | none =>
      { s with address_data := some (AddrVal.dict [(k, v)]), updated_at := now }
  | some (AddrVal.dict d) =>
      { s with address_data := some (AddrVal.dict (dictInsert k v d)), updated_at := now }
  | some (AddrVal.str _) => s

/-- `InvoiceWorkflowSession.update_field` (invoice `session_store.py`
lines 212-256).

* `line_item_field idx f`: edit one cell of `line_items` in place (a
  no-op-plus-`updated_at` when the index is out of range, as the source
  catches the `IndexError`, or when the `line_item_<idx>_<field>` name
  failed to parse, the `ValueError` arm); if the cell — or the whole
  slot — was clobbered to a string, the indexing/assignment raises
  (`TypeError`, or `IndexError` escaping the guard) and the session is
  returned untouched, except that an out-of-range index into a string
  slot is still caught as `IndexError`.
* `simple name v`: set `contact_name` / `contact_id` / `due_date`, or a
  legacy address sub-field, or fall into the catch-all
  `invoice_data[field_name] = field_value`, which aliases the reserved
  keys: `line_items`, `current_line_item` and `address` are overwritten
  with the raw string. `updated_at` is refreshed on every non-raising
  path. -/
def update_field {Item : Type} (now : Int) (e : FieldEdit Item)
    (s : InvoiceWorkflowSession Item) : InvoiceWorkflowSession Item :=
  match e with
  | .line_item_field idx f =>
      match s.line_items with
      | .list l =>
          match l[idx]? with
          | some (SlotVal.item i) =>
              { s with
                line_items := ListVal.list (l.set idx (SlotVal.item (f i)))
                updated_at := now }
          | some (SlotVal.str _) => s
          | none => { s with updated_at := now }
      | .str str =>
          if idx < str.data.length then s
          else { s with updated_at := now }
  | .simple name v =>
      if name.data.take 10 = "line_item_".data then { s with updated_at := now }
      else if name = "contact_name" then { s with contact_name := some v, updated_at := now }
      else if name = "contact_id" then
        { s with extra_data := dictInsert name v s.extra_data, updated_at := now }
      else if name = "due_date" then { s with due_date := some v, updated_at := now }
      else if name = "address_line1" then addr_set now "AddressLine1" v s
      else if name = "city" then addr_set now "City" v s
      else if name = "postal_code" then addr_set now "PostalCode" v s
      else if name = "country" then addr_set now "Country" v s
      else if name = "line_items" then
        { s with line_items := ListVal.str v, updated_at := now }
      else if name = "current_line_item" then
        { s with current_line_item := some (SlotVal.str v), updated_at := now }
      else if name = "address" then
        { s with address_data := some (AddrVal.str v), updated_at := now }
      else { s with extra_data := dictInsert name v s.extra_data, updated_at := now }

/-- Whether a field edit writes the reserved `current_line_item` key of
`invoice_data` through `update_field`'s catch-all branch (such a write
makes the pending item non-null without touching the flag). -/
def FieldEdit.writes_pending {Item : Type} : FieldEdit Item → Bool
  | .simple name _ => decide (name = "current_line_item")
  | .line_item_field _ _ => false

/-! ### Invoice route handlers (`routes/step_routes.py`, `routes/workflow_routes.py`)

Each route is modelled by its effect on the session entity; rendering,
CSRF checks and response shaping have no session effect and are omitted.
A route that catches an exception and returns an error response leaves
the session unmodified (every raising call in these handlers raises
before mutating), modelled by returning `Except.error`. -/

/-- `confirm_step` (`step_routes.py` lines 141-289): with a pending line
item on `line_item` only show the decision screen (no mutation);
otherwise append the (caller-supplied or current) step to
`completed_steps` if absent — with no validation of the supplied step —
and advance. An empty-string form value is falsy in
`step or session.current_step` and falls back to the current step. -/
def confirm_step {Item : Type} (now : Int) (step? : Option String)
    (s : InvoiceWorkflowSession Item) : InvoiceWorkflowSession Item :=
  let current := match step? with
    | some st => if st = "" then s.current_step else st
    | none => s.current_step
  if current = "line_item" ∧ s.has_pending_item then s
  else
    let s1 := if current ≠ "line_item" ∧ current ∉ s.completed_steps then
        { s with completed_steps := s.completed_steps ++ [current] }
      else s
    (advance_step now s1).1

/-- `confirm_line_item` (`step_routes.py` lines 292-386): commit the
pending item when truthy — `if current_item:` — (capacity `ValueError`
surfaces as a 500 with the session untouched), then either loop back to
`line_item` or mark `line_item` complete once and move to `review`. -/
def confirm_line_item {Item : Type} (add_another : Bool)
    (s : InvoiceWorkflowSession Item) : Except String (InvoiceWorkflowSession Item) :=
  let committed : Except String (InvoiceWorkflowSession Item) :=
    match s.current_line_item with
    | some c => if c.truthy then add_line_item c s else .ok s
    | none => .ok s
  match committed with
  | .error e => .error e
  | .ok s1 =>
      if add_another then
        .ok { s1 with current_step := "line_item", has_pending_item := false }
      else
        let s2 := { s1 with completed_steps := appendIfAbsent "line_item" s1.completed_steps }
        .ok { s2 with current_step := "review", has_pending_item := false }

/-- `add_another_item` (`step_routes.py` lines 672-766): commit the
pending item if any, then stay on `line_item`. -/
def add_another_item_route {Item : Type} (s : InvoiceWorkflowSession Item) :
    Except String (InvoiceWorkflowSession Item) :=
  let committed : Except String (InvoiceWorkflowSession Item) :=
    match s.current_line_item with
    | some c => if c.truthy then add_line_item c s else .ok s
    | none => .ok s
  match committed with
  | .error e => .error e
  | .ok s1 => .ok { s1 with current_step := "line_item" }

/-- `proceed_to_review` (`step_routes.py` lines 769-828): commit the
pending item if any, reject an empty invoice, then mark `line_item`
complete once and move to `review`. -/
def proceed_to_review_route {Item : Type} (s : InvoiceWorkflowSession Item) :
    Except String (InvoiceWorkflowSession Item) :=
  let committed : Except String (InvoiceWorkflowSession Item) :=
    match s.current_line_item with
    | some c => if c.truthy then add_line_item c s else .ok s
    | none => .ok s
  match committed with
  | .error e => .error e
  | .ok s1 =>
      if s1.line_items.truthy = false then .error "NO_LINE_ITEMS"
      else
        let s2 := { s1 with completed_steps := appendIfAbsent "line_item" s1.completed_steps }
        .ok { s2 with current_step := "review" }

/-- `go_to_step` (`workflow_routes.py` lines 182-288): reject a target
outside `get_workflow_steps`; navigation is allowed to `line_item`
whenever `invoice_data["line_items"]` is truthy, and otherwise only to
a completed step or the current step. `none` models the rejection response; success sets
`current_step` (the handler assigns the attribute directly, without
touching `updated_at`). -/
def go_to_step_route {Item : Type} (step : String)
    (s : InvoiceWorkflowSession Item) : Option (InvoiceWorkflowSession Item) :=
  if step ∉ get_workflow_steps then none
  else if (step = "line_item" ∧ s.line_items.truthy = true) ∨
      step ∈ s.completed_steps ∨ step = s.current_step then
    some { s with current_step := step }
  else none

/-- `clear_line_item` (`step_routes.py` lines 831-885): remove the item
at a valid index and sync the count. -/
def clear_line_item_route {Item : Type} (idx : Nat)
    (s : InvoiceWorkflowSession Item) : InvoiceWorkflowSession Item :=
  match s.line_items with
  | .list l =>
      if idx < l.length then
        { s with
          line_items := ListVal.list (l.eraseIdx idx)
          line_item_count := (l.eraseIdx idx).length }
      else s
  | .str _ => s

/-- `clear_all_line_items` (`step_routes.py` lines 888-942). -/
def clear_all_line_items_route {Item : Type} (s : InvoiceWorkflowSession Item) :
    InvoiceWorkflowSession Item :=
  { s with
    line_items := ListVal.list []
    line_item_count := 0
    current_line_item := none
    has_pending_item := false }

/-! ### Session store (`session_store.py` lines 280-306) -/

/-- The module-level `_sessions` dict. -/
def Store (Item : Type) : Type := List (String × InvoiceWorkflowSession Item)

/-- `get_invoice_session`: return the stored session when the id is
known and fresh (without touching `updated_at`); replace it with a fresh
session under the same id when expired (`now - updated_at > 30`
minutes); mint and store a fresh session otherwise. -/
def get_invoice_session {Item : Type} (now : Int) (sid? : Option String)
    (freshId : String) (store : Store Item) :
    InvoiceWorkflowSession Item × Store Item :=
  let mkNew : InvoiceWorkflowSession Item × Store Item :=
    let f := initInvoiceSession Item sid? freshId now
    (f, dictInsert f.session_id f store)
  match sid? with
  | some sid =>
      if sid ≠ "" then
        match List.lookup sid store with
        | some s =>
            if now - s.updated_at > 30 then
              let f := initInvoiceSession Item (some sid) freshId now
              (f, dictInsert sid f (dictErase sid store))
            else (s, store)
        | none => mkNew
      else mkNew
  | none => mkNew

/-- `cleanup_expired_sessions`: drop every entry with
`now - updated_at > 30` minutes; return the number removed. -/
def cleanup_expired_sessions {Item : Type} (now : Int) (store : Store Item) :
    Store Item × Nat :=
  let expired := store.filter (fun p => now - p.2.updated_at > 30)
  (store.filter (fun p => ¬ (now - p.2.updated_at > 30)), expired.length)

/-! ### Workflow operations

`Op` packages the session-mutating invoice endpoints so that invariants
can be stated over arbitrary operation sequences. A route whose handler
answers with an error response without mutating the session is the
identity on the session. -/

/-- One invoice workflow operation (the session effect of one request). -/
inductive Op (Item : Type) where
  | submit_step (now : Int) (step : String) (r : InvoiceParse Item) (t : String)
  | confirm (now : Int) (step? : Option String)
  | confirm_item (add_another : Bool)
  | add_another
  | proceed_review
  | nav (step : String)
  | reset_op (now : Int)
  | edit_field (now : Int) (e : FieldEdit Item)
  | clear_item (idx : Nat)
  | clear_all

/-- Apply one operation to a session. -/
def applyOp {Item : Type} (op : Op Item) (s : InvoiceWorkflowSession Item) :
    InvoiceWorkflowSession Item :=
  match op with
  | .submit_step now step r t => store_step_result now step r t s
  | .confirm now step? => confirm_step now step? s
  | .confirm_item b =>
      match confirm_line_item b s with
      | .ok s' => s'
      | .error _ => s
  | .add_another =>
      match add_another_item_route s with
      | .ok s' => s'
      | .error _ => s
  | .proceed_review =>
      match proceed_to_review_route s with
      | .ok s' => s'
      | .error _ => s
  | .nav step => (go_to_step_route step s).getD s
  | .reset_op now => reset now s
  | .edit_field now e => update_field now e s
  | .clear_item idx => clear_line_item_route idx s
  | .clear_all => clear_all_line_items_route s

/-- Apply a sequence of operations left to right. -/
def applyOps {Item : Type} (ops : List (Op Item)) (s : InvoiceWorkflowSession Item) :
    InvoiceWorkflowSession Item :=
  ops.foldl (fun s op => applyOp op s) s

/-! ### Voice pipeline (`invoice_workflow/step_handlers.py`)

The transcription (Whisper) and structured-extraction (LLM) collaborators
are external; they enter the embedding as an explicit oracle so that
"the collaborator was not invoked" is expressible as independence from
the oracle. -/

/-- `StepValidationError` (`invoice_workflow/models.py`): a field-scoped
validation failure. -/
structure StepValidationError where
  field : String
  message : String
deriving DecidableEq

/-- `MAX_AUDIO_SIZE` (`step_handlers.py` line 25). -/
def MAX_AUDIO_SIZE : Nat := 10 * 1024 * 1024

/-- The external collaborators of one voice-step request: the Whisper
transcription call (`Except.error` models a raised exception) and the
per-step structured extraction plus sanitization
(`_parse_contact_name_step` / `_parse_due_date_step` /
`_parse_line_item_step`, whose LLM call and local sanitizers are
external-input-dependent). -/
structure VoiceOracle (Item : Type) where
  transcribe : Except String String
  parse_step : String → String → Except StepValidationError (InvoiceParse Item)

/-- The body of `transcribe_audio` (`step_handlers.py` lines 28-70)
before its `except Exception` wrapper: the size guard (checked both on
the declared size and on the bytes actually read — one number here)
raises a field-scoped error before the Whisper call; otherwise the
transcript is the collaborator's text, stripped. -/
def transcribe_audio_body (size : Nat) (transcribe : Except String String) :
    Except StepValidationError String :=
  if size > MAX_AUDIO_SIZE then
    .error { field := "audio", message := "Audio file too large. Please keep recordings under 10MB." }
  else if size > MAX_AUDIO_SIZE then
    .error { field := "audio", message := "Audio file too large. Please keep recordings under 10MB." }
  else
    match transcribe with
    | .ok text => .ok text.trim
    | .error e => .error { field := "whisper", message := e }

/-- `transcribe_audio`: the `except Exception` clause converts every
failure inside the body — including the size guard's own
`StepValidationError` — into the generic audio-scoped error. -/
def transcribe_audio (size : Nat) (transcribe : Except String String) :
    Except StepValidationError String :=
  match transcribe_audio_body size transcribe with
  | .ok t => .ok t
  | .error _ =>
      .error { field := "audio", message := "Failed to transcribe audio. Please try speaking again." }

/-- Errors escaping `process_voice_step`: a `StepValidationError`, or
the `ValueError("Unknown voice step")` for a non-voice step id. -/
inductive PipelineError where
  | validation (e : StepValidationError)
  | unknown_step (step : String)
deriving DecidableEq

/-- `process_voice_step` (`step_handlers.py` lines 73-103): transcribe,
then dispatch to the step-specific parser. -/
def process_voice_step {Item : Type} (size : Nat) (step : String)
    (o : VoiceOracle Item) : Except PipelineError (String × InvoiceParse Item) :=
  match transcribe_audio size o.transcribe with
  | .error e => .error (.validation e)
  | .ok transcript =>
      if step = "contact_name" ∨ step = "due_date" ∨ step = "line_item" then
        match o.parse_step step transcript with
        | .ok r => .ok (transcript, r)
        | .error e => .error (.validation e)
      else .error (.unknown_step step)

/-- The session effect of the `/step` route `process_invoice_step`
(`step_routes.py` lines 27-138): run the pipeline and store the result;
any pipeline failure is answered as an error response with the session
untouched (`store_step_result` is only reached on success). -/
def process_invoice_step_route {Item : Type} (now : Int) (step : String)
    (size : Nat) (o : VoiceOracle Item) (s : InvoiceWorkflowSession Item) :
    Except PipelineError (InvoiceWorkflowSession Item) :=
  match process_voice_step size step o with
  | .error e => .error e
  | .ok (transcript, r) => .ok (store_step_result now step r transcript s)

/-! ### Credential resolution (`app/api/common/token_auth.py`) -/

/-- `MobileSession` (server-side machine session): the external
credentials it may hold. The Xero token dict is abstracted to an opaque
string (the resolver only tests its truthiness and returns it whole). -/
structure MobileSession where
  xero_token : Option String
  openai_api_key : Option String
deriving DecidableEq

/-- The authentication state a request is resolved against: JWT
validation (`MobileAuthManager.validate_token`, abstracted to the
decoded subject session id — `none` models an invalid or expired
signature), the `_mobile_sessions` dict, and the signed-cookie web
session's credentials. -/
structure AuthState where
  validate : String → Option String
  mobile_sessions : List (String × MobileSession)
  cookie_xero_token : Option String
  cookie_api_key : Option String

/-- `extract_bearer_token` (`token_auth.py` lines 249-262):
`auth_header.startswith("Bearer ")` and the slice `auth_header[7:]`,
expressed over the character list so the definition evaluates inside
the kernel. -/
def extract_bearer_token (auth_header : Option String) : Option String :=
  let h := auth_header.getD ""
  if h.data.take 7 = "Bearer ".data then some (String.mk (h.data.drop 7)) else none

/-- `get_xero_token` (`token_auth.py` lines 265-299): with a (truthy)
bearer token, resolve only through the machine session and return
`none` on any failure; fall back to the cookie session only when no
bearer token is present. An empty extracted token is falsy and also
takes the cookie path. -/
def get_xero_token (st : AuthState) (auth_header : Option String) : Option String :=
  match extract_bearer_token auth_header with
  | some token =>
      if token ≠ "" then
        match st.validate token with
        | some sid =>
            match List.lookup sid st.mobile_sessions with
            | some ms =>
                match ms.xero_token with
                | some tok => some tok
                | none => none
            | none => none
        | none => none
      else st.cookie_xero_token
  | none => st.cookie_xero_token

/-- `get_openai_api_key` (`token_auth.py` lines 302-336): same shape as
`get_xero_token`; an empty stored key is falsy and resolves to `none`. -/
def get_openai_api_key (st : AuthState) (auth_header : Option String) : Option String :=
  match extract_bearer_token auth_header with
  | some token =>
      if token ≠ "" then
        match st.validate token with
        | some sid =>
            match List.lookup sid st.mobile_sessions with
            | some ms =>
                match ms.openai_api_key with
                | some k => if k ≠ "" then some k else none
                | none => none
            | none => none
        | none => none
      else st.cookie_api_key
  | none => st.cookie_api_key

/-! ### Contact workflow session (`contact_workflow/session_store.py`) -/

/-- The address dict built by `parse_contact_data`. -/
structure StreetAddr where
  addressLine1 : String
  city : String
  postalCode : String
  country : String
deriving DecidableEq

/-- Parsed structured result of a contact voice step (`ContactNameStep`
/ `ContactEmailStep` / `ContactAddressStep`). -/
inductive ContactParse where
  | name (n : String)
  | email (e : String)
  | address (address_line1 city postal_code country : String)
  | other
deriving DecidableEq

/-- A value stored in the contact session's `workflow_data` dict. -/
inductive ConVal where
  | str (v : String)
  | addr (a : StreetAddr)
deriving DecidableEq

/-- `ContactWorkflowSession` with its `BaseWorkflowSession` fields; the
`contact_data` dict is split into its three keys. -/
structure ContactWorkflowSession where
  session_id : String
  current_step : String
  completed_steps : List String
  workflow_data : List (String × ConVal)
  step_errors : List (String × String)
  created_at : Int
  updated_at : Int
  name : Option String
  email_address : Option String
  address : Option StreetAddr
  transcripts : List (String × String)
  parsed_results : List (String × ContactParse)
  errors : List (String × String)
deriving DecidableEq

/-- The single-key `contact_data` delta produced by
`ContactWorkflowSession.parse_contact_data`. -/
inductive ContactDelta where
  | empty
  | dname (n : String)
  | demail (e : String)
  | daddr (a : StreetAddr)
deriving DecidableEq

/-- Python truthiness of the contact `parsed_data` dict. -/
def ContactDelta.nonempty : ContactDelta → Bool
  | .empty => false
  | _ => true

/-- `ContactWorkflowSession.parse_contact_data` (the `if step == ... and
hasattr(result, ...)` chain). -/
def parse_contact_data (step : String) (r : ContactParse) : ContactDelta :=
  if step = "name" then
    match r with
    | .name n => .dname n
    | _ => .empty
  else if step = "email" then
    match r with
    | .email e => .demail e
    | _ => .empty
  else if step = "address" then
    match r with
    | .address l c p co => .daddr ⟨l, c, p, co⟩
    | _ => .empty
  else .empty

/-- `self.contact_data.update(parsed_data)` for the typed fields. -/
def applyDeltaContact (d : ContactDelta) (s : ContactWorkflowSession) :
    ContactWorkflowSession :=
  match d with
  | .empty => s
  | .dname n => { s with name := some n }
  | .demail e => { s with email_address := some e }
  | .daddr a => { s with address := some a }

/-- The dict entries of a contact delta, for `workflow_data.update`. -/
def ContactDelta.toEntries : ContactDelta → List (String × ConVal)
  | .empty => []
  | .dname n => [("name", .str n)]
  | .demail e => [("email_address", .str e)]
  | .daddr a => [("address", .addr a)]

/-- `BaseWorkflowSession.mark_step_complete` as inherited by the contact
session. -/
def contact_mark_step_complete (now : Int) (step : String) (data : ContactDelta)
    (s : ContactWorkflowSession) : ContactWorkflowSession :=
  { s with
    completed_steps := appendIfAbsent step s.completed_steps
    workflow_data := data.toEntries.foldl (fun acc kv => dictInsert kv.1 kv.2 acc) s.workflow_data
    updated_at := now
    step_errors := dictErase step s.step_errors }

/-- `ContactWorkflowSession.store_step_result` (contact
`session_store.py` lines 105-121): record transcript and parsed result,
merge the parsed delta into `contact_data` and `workflow_data`, and mark
the step complete when the parse produced data. -/
def contact_store_step_result (now : Int) (step : String) (r : ContactParse)
    (transcript : String) (s : ContactWorkflowSession) : ContactWorkflowSession :=
  let s1 := { s with
    transcripts := dictInsert step transcript s.transcripts
    parsed_results := dictInsert step r s.parsed_results }
  let d := parse_contact_data step r
  let s2 := applyDeltaContact d s1
  let s2 := { s2 with
    workflow_data := d.toEntries.foldl (fun acc kv => dictInsert kv.1 kv.2 acc) s2.workflow_data }
  if d.nonempty then contact_mark_step_complete now step d s2 else s2

/-- `ContactWorkflowSession.__init__` (via `BaseWorkflowSession.__init__`). -/
def initContactSession (sid? : Option String) (freshId : String) (now : Int) :
    ContactWorkflowSession :=
  { session_id := match sid? with
      | some sid => if sid = "" then freshId else sid
      | none => freshId
    current_step := "welcome"
    completed_steps := []
    workflow_data := []
    step_errors := []
    created_at := now
    updated_at := now
    name := none
    email_address := none
    address := none
    transcripts := []
    parsed_results := []
    errors := [] }

/-- Sessions reachable from a fresh session by the invoice operations
other than `go_to_step` navigation and `reset`, with every voice
submission targeting the session's current step and no field edit
writing the reserved `current_line_item` key through `update_field`'s
catch-all branch. -/
inductive ReachableNoNav {Item : Type} : InvoiceWorkflowSession Item → Prop where
  | init (sid? : Option String) (freshId : String) (now : Int) :
      ReachableNoNav (initInvoiceSession Item sid? freshId now)
  | submit {s : InvoiceWorkflowSession Item} (now : Int) (r : InvoiceParse Item) (t : String) :
      ReachableNoNav s → ReachableNoNav (store_step_result now s.current_step r t s)
  | confirm {s : InvoiceWorkflowSession Item} (now : Int) (step? : Option String) :
      ReachableNoNav s → ReachableNoNav (confirm_step now step? s)
  | confirm_item {s : InvoiceWorkflowSession Item} (b : Bool) :
      ReachableNoNav s → ReachableNoNav (applyOp (.confirm_item b) s)
  | add_another {s : InvoiceWorkflowSession Item} :
      ReachableNoNav s → ReachableNoNav (applyOp .add_another s)
  | proceed {s : InvoiceWorkflowSession Item} :
      ReachableNoNav s → ReachableNoNav (applyOp .proceed_review s)
  | edit {s : InvoiceWorkflowSession Item} (now : Int) (e : FieldEdit Item) :
      e.writes_pending = false →
      ReachableNoNav s → ReachableNoNav (update_field now e s)
  | clear_item {s : InvoiceWorkflowSession Item} (idx : Nat) :
      ReachableNoNav s → ReachableNoNav (clear_line_item_route idx s)
  | clear_all {s : InvoiceWorkflowSession Item} :
      ReachableNoNav s → ReachableNoNav (clear_all_line_items_route s)

/-- Whether an operation's explicit confirmation step (if any) names a
step of the active catalog (the empty string is falsy in the handler and
falls back to the current step). -/
def confirm_in_catalog {Item : Type} : Op Item → Bool
  | .confirm _ (some st) => st == "" || decide (st ∈ get_workflow_steps)
  | _ => true

/-- The catalog invariant: every completed step and the current step lie
in `get_workflow_steps`. -/
def CatalogInv {Item : Type} (s : InvoiceWorkflowSession Item) : Prop :=
  (∀ x ∈ s.completed_steps, x ∈ get_workflow_steps) ∧ s.current_step ∈ get_workflow_steps

/-- A session holding a parsed-but-unconfirmed line item (used to
instantiate the two-phase commit theorems at a concrete input). -/
def sessionWithPending : InvoiceWorkflowSession Nat :=
  { initInvoiceSession Nat (some "c3") "u" 0 with
    current_step := "line_item"
    current_line_item := some (SlotVal.item 7)
    has_pending_item := true }

/-- A session whose committed line-item list is already at the
`max_line_items` capacity of 10, with an eleventh item pending. -/
def sessionAtCapacity : InvoiceWorkflowSession Nat :=
  { initInvoiceSession Nat (some "c4") "u" 0 with
    line_items := ListVal.list [SlotVal.item 0, SlotVal.item 1, SlotVal.item 2,
      SlotVal.item 3, SlotVal.item 4, SlotVal.item 5, SlotVal.item 6, SlotVal.item 7,
      SlotVal.item 8, SlotVal.item 9]
    line_item_count := 10
    current_line_item := some (SlotVal.item 99)
    has_pending_item := true }

/-- A concrete pair of external collaborators for the voice pipeline. -/
def oracleWitness : VoiceOracle Nat :=
  { transcribe := Except.ok "hello"
    parse_step := fun _ _ => Except.error { field := "contact_name", message := "no parse" } }

/-- A concrete authentication state: the token "tok" decodes to machine
session "m", which holds no external credentials, while the cookie
session holds both. -/
def authStateWitness : AuthState :=
  { validate := fun t => if t = "tok" then some "m" else none
    mobile_sessions := [("m", { xero_token := none, openai_api_key := none })]
    cookie_xero_token := some "cookie-xero"
    cookie_api_key := some "cookie-key" }

/-! ### Helper lemmas -/

theorem dictInsert_lookup_self {α : Type} (k : String) (v : α) (l : List (String × α)) :
    List.lookup k (dictInsert k v l) = some v := by
  induction l with
  | nil => simp [dictInsert, List.lookup]
  | cons hd tl ih =>
      obtain ⟨k', v'⟩ := hd
      by_cases hk : k' = k
      · subst hk
        simp [dictInsert, List.lookup]
      · have hb : (k == k') = false := by
          simpa [beq_iff_eq] using Ne.symm hk
        simp [dictInsert, hk, List.lookup, hb, ih]

theorem mem_appendIfAbsent {l : List String} {st x : String}
    (h : x ∈ appendIfAbsent st l) : x ∈ l ∨ x = st := by
  unfold appendIfAbsent at h
  split at h
  · exact Or.inl h
  · simpa using h

theorem appendIfAbsent_nodup {l : List String} {st : String} (h : l.Nodup) :
    (appendIfAbsent st l).Nodup := by
  unfold appendIfAbsent
  split
  · exact h
  · rename_i hst
    simp [List.nodup_append, h, hst]

theorem appendIfAbsent_of_mem {l : List String} {st : String} (h : st ∈ l) :
    appendIfAbsent st l = l := by
  simp [appendIfAbsent, h]

theorem mem_appendIfAbsent_self (l : List String) (st : String) :
    st ∈ appendIfAbsent st l := by
  unfold appendIfAbsent
  split
  · assumption
  · simp

theorem appendIfAbsent_count {l : List String} {st : String} (h : l.count st ≤ 1) :
    (appendIfAbsent st l).count st = 1 := by
  unfold appendIfAbsent
  split
  · rename_i hm
    have h1 : 0 < l.count st := List.count_pos_iff.mpr hm
    omega
  · rename_i hm
    have h0 : l.count st = 0 := List.count_eq_zero.mpr hm
    simp [List.count_append, h0]

theorem applyDeltaInvoice_completed {Item : Type} (d : InvoiceDelta Item)
    (s : InvoiceWorkflowSession Item) :
    (applyDeltaInvoice d s).completed_steps = s.completed_steps := by
  cases d <;> rfl

theorem applyDeltaInvoice_current_step {Item : Type} (d : InvoiceDelta Item)
    (s : InvoiceWorkflowSession Item) :
    (applyDeltaInvoice d s).current_step = s.current_step := by
  cases d <;> rfl

theorem applyDeltaInvoice_line_items {Item : Type} (d : InvoiceDelta Item)
    (s : InvoiceWorkflowSession Item) :
    (applyDeltaInvoice d s).line_items = s.line_items := by
  cases d <;> rfl

theorem applyDeltaInvoice_has_pending {Item : Type} (d : InvoiceDelta Item)
    (s : InvoiceWorkflowSession Item) :
    (applyDeltaInvoice d s).has_pending_item = s.has_pending_item := by
  cases d <;> rfl

theorem applyDeltaInvoice_max {Item : Type} (d : InvoiceDelta Item)
    (s : InvoiceWorkflowSession Item) :
    (applyDeltaInvoice d s).max_line_items = s.max_line_items := by
  cases d <;> rfl

theorem applyDeltaInvoice_current_line_item {Item : Type} (d : InvoiceDelta Item)
    (s : InvoiceWorkflowSession Item) :
    (applyDeltaInvoice d s).current_line_item =
      match d with
      | .ditem i => some (SlotVal.item i)
      | _ => s.current_line_item := by
  cases d <;> rfl

theorem applyDeltaInvoice_transcripts {Item : Type} (d : InvoiceDelta Item)
    (s : InvoiceWorkflowSession Item) :
    (applyDeltaInvoice d s).transcripts = s.transcripts := by
  cases d <;> rfl

theorem store_completed {Item : Type} (now : Int) (step : String) (r : InvoiceParse Item)
    (t : String) (s : InvoiceWorkflowSession Item) :
    (store_step_result now step r t s).completed_steps =
      if (parse_invoice_data step r).nonempty ∧ step ≠ "line_item" then
        appendIfAbsent step s.completed_steps
      else s.completed_steps := by
  simp only [store_step_result]
  split
  · split <;> simp [mark_step_complete, applyDeltaInvoice_completed]
  · split <;> simp [mark_step_complete, applyDeltaInvoice_completed]

theorem store_current_step {Item : Type} (now : Int) (step : String) (r : InvoiceParse Item)
    (t : String) (s : InvoiceWorkflowSession Item) :
    (store_step_result now step r t s).current_step = s.current_step := by
  simp only [store_step_result]
  split
  · split <;> simp [mark_step_complete, applyDeltaInvoice_current_step]
  · split <;> simp [mark_step_complete, applyDeltaInvoice_current_step]

theorem store_line_items {Item : Type} (now : Int) (step : String) (r : InvoiceParse Item)
    (t : String) (s : InvoiceWorkflowSession Item) :
    (store_step_result now step r t s).line_items = s.line_items := by
  simp only [store_step_result]
  split
  · split <;> simp [mark_step_complete, applyDeltaInvoice_line_items]
  · split <;> simp [mark_step_complete, applyDeltaInvoice_line_items]

theorem store_max {Item : Type} (now : Int) (step : String) (r : InvoiceParse Item)
    (t : String) (s : InvoiceWorkflowSession Item) :
    (store_step_result now step r t s).max_line_items = s.max_line_items := by
  simp only [store_step_result]
  split
  · split <;> simp [mark_step_complete, applyDeltaInvoice_max]
  · split <;> simp [mark_step_complete, applyDeltaInvoice_max]

theorem store_has_pending {Item : Type} (now : Int) (step : String) (r : InvoiceParse Item)
    (t : String) (s : InvoiceWorkflowSession Item) :
    (store_step_result now step r t s).has_pending_item =
      if step = "line_item" ∧ (parse_invoice_data step r).isItem then true
      else s.has_pending_item := by
  simp only [store_step_result]
  split
  · split <;> simp_all [mark_step_complete, applyDeltaInvoice_has_pending]
  · split <;> simp_all [mark_step_complete, applyDeltaInvoice_has_pending]

theorem store_current_line_item {Item : Type} (now : Int) (step : String)
    (r : InvoiceParse Item) (t : String) (s : InvoiceWorkflowSession Item) :
    (store_step_result now step r t s).current_line_item =
      match parse_invoice_data step r with
      | .ditem i => some (SlotVal.item i)
      | _ => s.current_line_item := by
  simp only [store_step_result]
  split
  · split <;> simp [mark_step_complete, applyDeltaInvoice_current_line_item]
  · split <;> simp [mark_step_complete, applyDeltaInvoice_current_line_item]

theorem store_transcripts {Item : Type} (now : Int) (step : String) (r : InvoiceParse Item)
    (t : String) (s : InvoiceWorkflowSession Item) :
    (store_step_result now step r t s).transcripts = dictInsert step t s.transcripts := by
  simp only [store_step_result]
  split
  · split <;> simp [mark_step_complete, applyDeltaInvoice_transcripts]
  · split <;> simp [mark_step_complete, applyDeltaInvoice_transcripts]

theorem advance_base_completed {Item : Type} (now : Int) (s : InvoiceWorkflowSession Item) :
    ((advance_step_base now s).1).completed_steps = s.completed_steps := by
  unfold advance_step_base
  dsimp only
  split <;> rfl

theorem advance_base_line_items {Item : Type} (now : Int) (s : InvoiceWorkflowSession Item) :
    ((advance_step_base now s).1).line_items = s.line_items := by
  unfold advance_step_base
  dsimp only
  split <;> rfl

theorem advance_base_has_pending {Item : Type} (now : Int) (s : InvoiceWorkflowSession Item) :
    ((advance_step_base now s).1).has_pending_item = s.has_pending_item := by
  unfold advance_step_base
  dsimp only
  split <;> rfl

theorem advance_base_current_line_item {Item : Type} (now : Int)
    (s : InvoiceWorkflowSession Item) :
    ((advance_step_base now s).1).current_line_item = s.current_line_item := by
  unfold advance_step_base
  dsimp only
  split <;> rfl

theorem advance_base_max {Item : Type} (now : Int) (s : InvoiceWorkflowSession Item) :
    ((advance_step_base now s).1).max_line_items = s.max_line_items := by
  unfold advance_step_base
  dsimp only
  split <;> rfl

theorem advance_completed {Item : Type} (now : Int) (s : InvoiceWorkflowSession Item) :
    ((advance_step now s).1).completed_steps = s.completed_steps := by
  unfold advance_step
  split
  · rfl
  · exact advance_base_completed now s

theorem advance_line_items {Item : Type} (now : Int) (s : InvoiceWorkflowSession Item) :
    ((advance_step now s).1).line_items = s.line_items := by
  unfold advance_step
  split
  · rfl
  · exact advance_base_line_items now s

theorem advance_has_pending {Item : Type} (now : Int) (s : InvoiceWorkflowSession Item) :
    ((advance_step now s).1).has_pending_item = s.has_pending_item := by
  unfold advance_step
  split
  · rfl
  · exact advance_base_has_pending now s

theorem advance_current_line_item {Item : Type} (now : Int) (s : InvoiceWorkflowSession Item) :
    ((advance_step now s).1).current_line_item = s.current_line_item := by
  unfold advance_step
  split
  · rfl
  · exact advance_base_current_line_item now s

theorem advance_max {Item : Type} (now : Int) (s : InvoiceWorkflowSession Item) :
    ((advance_step now s).1).max_line_items = s.max_line_items := by
  unfold advance_step
  split
  · rfl
  · exact advance_base_max now s

theorem advance_pending_stay {Item : Type} (now : Int) (s : InvoiceWorkflowSession Item)
    (h1 : s.current_step = "line_item") (h2 : s.has_pending_item = true) :
    advance_step now s = (s, some s.current_step) := by
  unfold advance_step
  rw [if_pos ⟨h1, h2⟩]

/-- The step the base advance moves to is in the catalog (or the move
does not happen). -/
theorem advance_base_current_mem {Item : Type} (now : Int) (s : InvoiceWorkflowSession Item) :
    ((advance_step_base now s).1).current_step = s.current_step ∨
      ((advance_step_base now s).1).current_step ∈ get_workflow_steps := by
  unfold advance_step_base
  dsimp only
  split
  · rename_i h
    right
    have hlt : get_workflow_steps.indexOf s.current_step + 1 < get_workflow_steps.length := by
      simp [get_workflow_steps] at h ⊢
      omega
    simp only [List.getD_eq_getElem?_getD]
    rw [List.getElem?_eq_getElem hlt]
    exact List.getElem_mem _
  · left; rfl

theorem advance_current_mem {Item : Type} (now : Int) (s : InvoiceWorkflowSession Item) :
    ((advance_step now s).1).current_step = s.current_step ∨
      ((advance_step now s).1).current_step ∈ get_workflow_steps := by
  unfold advance_step
  split
  · left; rfl
  · exact advance_base_current_mem now s

theorem confirm_line_item_ok {Item : Type} {b : Bool} {s s2 : InvoiceWorkflowSession Item}
    (h : confirm_line_item b s = Except.ok s2) :
    s2.completed_steps =
      (if b then s.completed_steps else appendIfAbsent "line_item" s.completed_steps)
    ∧ s2.has_pending_item = false
    ∧ s2.current_step = (if b then "line_item" else "review")
    ∧ s2.max_line_items = s.max_line_items
    ∧ (s.current_line_item = none → s2.current_line_item = none)
    ∧ (∀ c, s.current_line_item = some c → c.truthy = true →
        s2.current_line_item = none) := by
  unfold confirm_line_item at h
  cases hc : s.current_line_item with
  | none =>
      rw [hc] at h
      dsimp only at h
      cases b with
      | true =>
          rw [if_pos rfl] at h
          simp only [Except.ok.injEq] at h
          subst h
          simp [hc]
      | false =>
          rw [if_neg (by simp)] at h
          simp only [Except.ok.injEq] at h
          subst h
          simp [hc]
  | some c =>
      rw [hc] at h
      dsimp only at h
      by_cases htr : c.truthy = true
      · rw [if_pos htr] at h
        unfold add_line_item at h
        cases hsl : s.line_items with
        | list l =>
            rw [hsl] at h
            dsimp only at h
            by_cases hcap : l.length ≥ s.max_line_items
            · rw [if_pos hcap] at h
              simp at h
            · rw [if_neg hcap] at h
              dsimp only at h
              cases b with
              | true =>
                  rw [if_pos rfl] at h
                  simp only [Except.ok.injEq] at h
                  subst h
                  simp
              | false =>
                  rw [if_neg (by simp)] at h
                  simp only [Except.ok.injEq] at h
                  subst h
                  simp
        | str str =>
            rw [hsl] at h
            dsimp only at h
            by_cases hcap : str.data.length ≥ s.max_line_items
            · rw [if_pos hcap] at h
              simp at h
            · rw [if_neg hcap] at h
              simp at h
      · rw [if_neg htr] at h
        dsimp only at h
        cases b with
        | true =>
            rw [if_pos rfl] at h
            simp only [Except.ok.injEq] at h
            subst h
            refine ⟨rfl, rfl, rfl, rfl, fun hn => absurd hn (by simp), ?_⟩
            intro c2 hc2 htr2
            injection hc2 with hc2
            subst hc2
            exact absurd htr2 htr
        | false =>
            rw [if_neg (by simp)] at h
            simp only [Except.ok.injEq] at h
            subst h
            refine ⟨rfl, rfl, rfl, rfl, fun hn => absurd hn (by simp), ?_⟩
            intro c2 hc2 htr2
            injection hc2 with hc2
            subst hc2
            exact absurd htr2 htr

theorem add_another_item_ok {Item : Type} {s s2 : InvoiceWorkflowSession Item}
    (h : add_another_item_route s = Except.ok s2) :
    s2.completed_steps = s.completed_steps
    ∧ s2.current_step = "line_item"
    ∧ s2.max_line_items = s.max_line_items
    ∧ (s.current_line_item = none →
        s2.current_line_item = none ∧ s2.has_pending_item = s.has_pending_item)
    ∧ (∀ c, s.current_line_item = some c → c.truthy = true →
        s2.current_line_item = none ∧ s2.has_pending_item = false) := by
  unfold add_another_item_route at h
  cases hc : s.current_line_item with
  | none =>
      rw [hc] at h
      dsimp only at h
      simp only [Except.ok.injEq] at h
      subst h
      refine ⟨rfl, rfl, rfl, fun _ => ⟨hc, rfl⟩, fun c hc2 _ => absurd hc2 (by simp)⟩
  | some c =>
      rw [hc] at h
      dsimp only at h
      by_cases htr : c.truthy = true
      · rw [if_pos htr] at h
        unfold add_line_item at h
        cases hsl : s.line_items with
        | list l =>
            rw [hsl] at h
            dsimp only at h
            by_cases hcap : l.length ≥ s.max_line_items
            · rw [if_pos hcap] at h
              simp at h
            · rw [if_neg hcap] at h
              dsimp only at h
              simp only [Except.ok.injEq] at h
              subst h
              refine ⟨rfl, rfl, rfl, fun hn => absurd hn (by simp),
                fun _ _ _ => ⟨rfl, rfl⟩⟩
        | str str =>
            rw [hsl] at h
            dsimp only at h
            by_cases hcap : str.data.length ≥ s.max_line_items
            · rw [if_pos hcap] at h
              simp at h
            · rw [if_neg hcap] at h
              simp at h
      · rw [if_neg htr] at h
        dsimp only at h
        simp only [Except.ok.injEq] at h
        subst h
        refine ⟨rfl, rfl, rfl, fun hn => absurd hn (by simp), ?_⟩
        intro c2 hc2 htr2
        injection hc2 with hc2
        subst hc2
        exact absurd htr2 htr

theorem proceed_to_review_ok {Item : Type} {s s2 : InvoiceWorkflowSession Item}
    (h : proceed_to_review_route s = Except.ok s2) :
    s2.completed_steps = appendIfAbsent "line_item" s.completed_steps
    ∧ s2.current_step = "review"
    ∧ s2.max_line_items = s.max_line_items
    ∧ (s.current_line_item = none →
        s2.current_line_item = none ∧ s2.has_pending_item = s.has_pending_item)
    ∧ (∀ c, s.current_line_item = some c → c.truthy = true →
        s2.current_line_item = none ∧ s2.has_pending_item = false) := by
  unfold proceed_to_review_route at h
  cases hc : s.current_line_item with
  | none =>
      rw [hc] at h
      dsimp only at h
      split at h
      · simp at h
      · simp only [Except.ok.injEq] at h
        subst h
        refine ⟨rfl, rfl, rfl, fun _ => ⟨hc, rfl⟩, fun c hc2 _ => absurd hc2 (by simp)⟩
  | some c =>
      rw [hc] at h
      dsimp only at h
      by_cases htr : c.truthy = true
      · rw [if_pos htr] at h
        unfold add_line_item at h
        cases hsl : s.line_items with
        | list l =>
            rw [hsl] at h
            dsimp only at h
            by_cases hcap : l.length ≥ s.max_line_items
            · rw [if_pos hcap] at h
              simp at h
            · rw [if_neg hcap] at h
              dsimp only at h
              split at h
              · simp at h
              · simp only [Except.ok.injEq] at h
                subst h
                refine ⟨rfl, rfl, rfl, fun hn => absurd hn (by simp),
                  fun _ _ _ => ⟨rfl, rfl⟩⟩
        | str str =>
            rw [hsl] at h
            dsimp only at h
            by_cases hcap : str.data.length ≥ s.max_line_items
            · rw [if_pos hcap] at h
              simp at h
            · rw [if_neg hcap] at h
              simp at h
      · rw [if_neg htr] at h
        dsimp only at h
        split at h
        · simp at h
        · simp only [Except.ok.injEq] at h
          subst h
          refine ⟨rfl, rfl, rfl, fun hn => absurd hn (by simp), ?_⟩
          intro c2 hc2 htr2
          injection hc2 with hc2
          subst hc2
          exact absurd htr2 htr

theorem go_to_step_route_some {Item : Type} {step : String}
    {s s2 : InvoiceWorkflowSession Item} (h : go_to_step_route step s = some s2) :
    s2 = { s with current_step := step } ∧ step ∈ get_workflow_steps := by
  unfold go_to_step_route at h
  split at h
  · simp at h
  · rename_i hmem
    split at h
    · simp at h
      exact ⟨h.symm, by simpa using hmem⟩
    · simp at h

theorem nav_completed {Item : Type} (step : String) (s : InvoiceWorkflowSession Item) :
    (applyOp (Op.nav step) s).completed_steps = s.completed_steps := by
  simp only [applyOp]
  cases hg : go_to_step_route step s with
  | none => rfl
  | some s2 =>
      obtain ⟨rfl, -⟩ := go_to_step_route_some hg
      rfl

theorem addr_set_fields {Item : Type} (now : Int) (k v : String)
    (s : InvoiceWorkflowSession Item) :
    (addr_set now k v s).completed_steps = s.completed_steps
    ∧ (addr_set now k v s).current_step = s.current_step
    ∧ (addr_set now k v s).has_pending_item = s.has_pending_item
    ∧ (addr_set now k v s).current_line_item = s.current_line_item := by
  unfold addr_set
  (repeat' split) <;> exact ⟨rfl, rfl, rfl, rfl⟩

theorem update_field_simple_fields {Item : Type} (now : Int) (name v : String)
    (s : InvoiceWorkflowSession Item) :
    (update_field now (FieldEdit.simple name v) s).completed_steps = s.completed_steps
    ∧ (update_field now (FieldEdit.simple name v) s).current_step = s.current_step
    ∧ (update_field now (FieldEdit.simple name v) s).has_pending_item = s.has_pending_item
    ∧ (name ≠ "current_line_item" →
        (update_field now (FieldEdit.simple name v) s).current_line_item =
          s.current_line_item) := by
  unfold update_field
  dsimp only
  by_cases h1 : name.data.take 10 = "line_item_".data
  · rw [if_pos h1]
    exact ⟨rfl, rfl, rfl, fun _ => rfl⟩
  · rw [if_neg h1]
    by_cases h2 : name = "contact_name"
    · rw [if_pos h2]
      exact ⟨rfl, rfl, rfl, fun _ => rfl⟩
    · rw [if_neg h2]
      by_cases h3 : name = "contact_id"
      · rw [if_pos h3]
        exact ⟨rfl, rfl, rfl, fun _ => rfl⟩
      · rw [if_neg h3]
        by_cases h4 : name = "due_date"
        · rw [if_pos h4]
          exact ⟨rfl, rfl, rfl, fun _ => rfl⟩
        · rw [if_neg h4]
          by_cases h5 : name = "address_line1"
          · rw [if_pos h5]
            obtain ⟨a1, a2, a3, a4⟩ := addr_set_fields now "AddressLine1" v s
            exact ⟨a1, a2, a3, fun _ => a4⟩
          · rw [if_neg h5]
            by_cases h6 : name = "city"
            · rw [if_pos h6]
              obtain ⟨a1, a2, a3, a4⟩ := addr_set_fields now "City" v s
              exact ⟨a1, a2, a3, fun _ => a4⟩
            · rw [if_neg h6]
              by_cases h7 : name = "postal_code"
              · rw [if_pos h7]
                obtain ⟨a1, a2, a3, a4⟩ := addr_set_fields now "PostalCode" v s
                exact ⟨a1, a2, a3, fun _ => a4⟩
              · rw [if_neg h7]
                by_cases h8 : name = "country"
                · rw [if_pos h8]
                  obtain ⟨a1, a2, a3, a4⟩ := addr_set_fields now "Country" v s
                  exact ⟨a1, a2, a3, fun _ => a4⟩
                · rw [if_neg h8]
                  by_cases h9 : name = "line_items"
                  · rw [if_pos h9]
                    exact ⟨rfl, rfl, rfl, fun _ => rfl⟩
                  · rw [if_neg h9]
                    by_cases h10 : name = "current_line_item"
                    · rw [if_pos h10]
                      exact ⟨rfl, rfl, rfl, fun hne => absurd h10 hne⟩
                    · rw [if_neg h10]
                      by_cases h11 : name = "address"
                      · rw [if_pos h11]
                        exact ⟨rfl, rfl, rfl, fun _ => rfl⟩
                      · rw [if_neg h11]
                        exact ⟨rfl, rfl, rfl, fun _ => rfl⟩

theorem update_field_item_fields {Item : Type} (now : Int) (idx : Nat)
    (f : Item → Item) (s : InvoiceWorkflowSession Item) :
    (update_field now (FieldEdit.line_item_field idx f) s).completed_steps =
        s.completed_steps
    ∧ (update_field now (FieldEdit.line_item_field idx f) s).current_step = s.current_step
    ∧ (update_field now (FieldEdit.line_item_field idx f) s).has_pending_item =
        s.has_pending_item
    ∧ (update_field now (FieldEdit.line_item_field idx f) s).current_line_item =
        s.current_line_item := by
  unfold update_field
  dsimp only
  (repeat' split) <;> exact ⟨rfl, rfl, rfl, rfl⟩

theorem update_field_completed {Item : Type} (now : Int) (e : FieldEdit Item)
    (s : InvoiceWorkflowSession Item) :
    (update_field now e s).completed_steps = s.completed_steps := by
  cases e with
  | line_item_field idx f => exact (update_field_item_fields now idx f s).1
  | simple name v => exact (update_field_simple_fields now name v s).1

theorem update_field_current_step {Item : Type} (now : Int) (e : FieldEdit Item)
    (s : InvoiceWorkflowSession Item) :
    (update_field now e s).current_step = s.current_step := by
  cases e with
  | line_item_field idx f => exact (update_field_item_fields now idx f s).2.1
  | simple name v => exact (update_field_simple_fields now name v s).2.1

theorem update_field_has_pending {Item : Type} (now : Int) (e : FieldEdit Item)
    (s : InvoiceWorkflowSession Item) :
    (update_field now e s).has_pending_item = s.has_pending_item := by
  cases e with
  | line_item_field idx f => exact (update_field_item_fields now idx f s).2.2.1
  | simple name v => exact (update_field_simple_fields now name v s).2.2.1

theorem update_field_current_line_item {Item : Type} (now : Int) (e : FieldEdit Item)
    (s : InvoiceWorkflowSession Item) (hwp : e.writes_pending = false) :
    (update_field now e s).current_line_item = s.current_line_item := by
  cases e with
  | line_item_field idx f => exact (update_field_item_fields now idx f s).2.2.2
  | simple name v =>
      simp only [FieldEdit.writes_pending, decide_eq_false_iff_not] at hwp
      exact (update_field_simple_fields now name v s).2.2.2 hwp

theorem clear_line_item_fields {Item : Type} (idx : Nat) (s : InvoiceWorkflowSession Item) :
    (clear_line_item_route idx s).completed_steps = s.completed_steps
    ∧ (clear_line_item_route idx s).current_step = s.current_step
    ∧ (clear_line_item_route idx s).has_pending_item = s.has_pending_item
    ∧ (clear_line_item_route idx s).current_line_item = s.current_line_item := by
  unfold clear_line_item_route
  (repeat' split) <;> exact ⟨rfl, rfl, rfl, rfl⟩

theorem confirm_step_has_pending {Item : Type} (now : Int) (step? : Option String)
    (s : InvoiceWorkflowSession Item) :
    (confirm_step now step? s).has_pending_item = s.has_pending_item := by
  unfold confirm_step
  dsimp only
  split
  · rfl
  · rw [advance_has_pending]
    split <;> rfl

theorem confirm_step_current_line_item {Item : Type} (now : Int) (step? : Option String)
    (s : InvoiceWorkflowSession Item) :
    (confirm_step now step? s).current_line_item = s.current_line_item := by
  unfold confirm_step
  dsimp only
  split
  · rfl
  · rw [advance_current_line_item]
    split <;> rfl

theorem advance_pending_fst {Item : Type} (now : Int) (s : InvoiceWorkflowSession Item)
    (h1 : s.current_step = "line_item") (h2 : s.has_pending_item = true) :
    (advance_step now s).1 = s := by
  rw [advance_pending_stay now s h1 h2]

theorem confirm_step_current_pending {Item : Type} (now : Int) (step? : Option String)
    {s : InvoiceWorkflowSession Item} (h1 : s.current_step = "line_item")
    (h2 : s.has_pending_item = true) :
    (confirm_step now step? s).current_step = "line_item" := by
  unfold confirm_step
  dsimp only
  split
  · exact h1
  · split
    · rw [advance_pending_fst now]
      · exact h1
      · exact h1
      · exact h2
    · rw [advance_pending_fst now]
      · exact h1
      · exact h1
      · exact h2

theorem parse_invoice_data_nonempty_steps {Item : Type} {step : String}
    {r : InvoiceParse Item} (h : (parse_invoice_data step r).nonempty = true) :
    step = "contact_name" ∨ step = "due_date" ∨ step = "line_item" := by
  unfold parse_invoice_data at h
  split at h
  · left; assumption
  · split at h
    · right; left; assumption
    · split at h
      · right; right; assumption
      · simp [InvoiceDelta.nonempty] at h

theorem parse_invoice_data_ditem {Item : Type} {step : String} {r : InvoiceParse Item}
    {i : Item} (h : parse_invoice_data step r = InvoiceDelta.ditem i) :
    step = "line_item" ∧ r = InvoiceParse.line_item i := by
  unfold parse_invoice_data at h
  split at h
  · split at h <;> simp_all
  · split at h
    · split at h <;> simp_all
    · split at h
      · constructor
        · assumption
        · split at h <;> simp_all
      · simp_all

/-- `completed_steps` never acquires a duplicate under any operation. -/
theorem applyOp_nodup {Item : Type} (op : Op Item) (s : InvoiceWorkflowSession Item)
    (h : s.completed_steps.Nodup) : (applyOp op s).completed_steps.Nodup := by
  cases op with
  | submit_step now step r t =>
      simp only [applyOp]
      rw [store_completed]
      split
      · exact appendIfAbsent_nodup h
      · exact h
  | confirm now step? =>
      simp only [applyOp]
      unfold confirm_step
      dsimp only
      split
      · exact h
      · rw [advance_completed]
        split
        · rename_i hcond
          simp [List.nodup_append, h, hcond.2]
        · exact h
  | confirm_item b =>
      simp only [applyOp]
      cases hcl : confirm_line_item b s with
      | error e => exact h
      | ok s2 =>
          obtain ⟨hcomp, -, -, -, -⟩ := confirm_line_item_ok hcl
          rw [hcomp]
          split
          · exact h
          · exact appendIfAbsent_nodup h
  | add_another =>
      simp only [applyOp]
      cases hcl : add_another_item_route s with
      | error e => exact h
      | ok s2 =>
          obtain ⟨hcomp, -⟩ := add_another_item_ok hcl
          rw [hcomp]
          exact h
  | proceed_review =>
      simp only [applyOp]
      cases hcl : proceed_to_review_route s with
      | error e => exact h
      | ok s2 =>
          obtain ⟨hcomp, -⟩ := proceed_to_review_ok hcl
          rw [hcomp]
          exact appendIfAbsent_nodup h
  | nav step =>
      rw [nav_completed]
      exact h
  | reset_op now => simp [applyOp, reset]
  | edit_field now e =>
      simp only [applyOp]
      rw [update_field_completed]
      exact h
  | clear_item idx =>
      simp only [applyOp]
      rw [(clear_line_item_fields idx s).1]
      exact h
  | clear_all => exact h

theorem applyOp_catalog {Item : Type} (op : Op Item) (s : InvoiceWorkflowSession Item)
    (hop : confirm_in_catalog op = true) (h : CatalogInv s) : CatalogInv (applyOp op s) := by
  obtain ⟨hsub, hcur⟩ := h
  cases op with
  | submit_step now step r t =>
      simp only [applyOp]
      constructor
      · rw [store_completed]
        split
        · rename_i hcond
          intro x hx
          rcases mem_appendIfAbsent hx with hx | rfl
          · exact hsub x hx
          · rcases parse_invoice_data_nonempty_steps hcond.1 with hs | hs | hs
            · subst hs; simp [get_workflow_steps]
            · subst hs; simp [get_workflow_steps]
            · exact absurd hs hcond.2
        · exact hsub
      · rw [store_current_step]
        exact hcur
  | confirm now step? =>
      simp only [applyOp]
      unfold confirm_step
      dsimp only
      have main : ∀ (cur : String), cur ∈ get_workflow_steps →
          @CatalogInv Item
            (if cur = "line_item" ∧ s.has_pending_item = true then s
             else (advance_step now
               (if cur ≠ "line_item" ∧ cur ∉ s.completed_steps then
                 { s with completed_steps := s.completed_steps ++ [cur] }
                else s)).1) := by
        intro cur hmem
        split
        · exact ⟨hsub, hcur⟩
        · constructor
          · rw [advance_completed]
            split
            · intro x hx
              rcases List.mem_append.mp hx with hx | hx
              · exact hsub x hx
              · simp at hx
                subst hx
                exact hmem
            · exact hsub
          · rcases @advance_current_mem Item now _ with heq | hmem2
            · rw [heq]
              split <;> exact hcur
            · exact hmem2
      cases step? with
      | none =>
          dsimp only
          exact main s.current_step hcur
      | some st =>
          dsimp only
          by_cases hst : st = ""
          · rw [if_pos hst]
            exact main s.current_step hcur
          · rw [if_neg hst]
            have hmem : st ∈ get_workflow_steps := by
              simp only [confirm_in_catalog, Bool.or_eq_true, beq_iff_eq,
                decide_eq_true_eq] at hop
              rcases hop with hemp | hm
              · exact absurd hemp hst
              · exact hm
            exact main st hmem
  | confirm_item b =>
      simp only [applyOp]
      cases hcl : confirm_line_item b s with
      | error e => exact ⟨hsub, hcur⟩
      | ok s2 =>
          obtain ⟨hcomp, -, hcs, -, -⟩ := confirm_line_item_ok hcl
          constructor
          · rw [hcomp]
            split
            · exact hsub
            · intro x hx
              rcases mem_appendIfAbsent hx with hx | rfl
              · exact hsub x hx
              · simp [get_workflow_steps]
          · rw [hcs]
            split <;> simp [get_workflow_steps]
  | add_another =>
      simp only [applyOp]
      cases hcl : add_another_item_route s with
      | error e => exact ⟨hsub, hcur⟩
      | ok s2 =>
          obtain ⟨hcomp, hcs, -⟩ := add_another_item_ok hcl
          refine ⟨by rw [hcomp]; exact hsub, by rw [hcs]; simp [get_workflow_steps]⟩
  | proceed_review =>
      simp only [applyOp]
      cases hcl : proceed_to_review_route s with
      | error e => exact ⟨hsub, hcur⟩
      | ok s2 =>
          obtain ⟨hcomp, hcs, -⟩ := proceed_to_review_ok hcl
          constructor
          · rw [hcomp]
            intro x hx
            rcases mem_appendIfAbsent hx with hx | rfl
            · exact hsub x hx
            · simp [get_workflow_steps]
          · rw [hcs]
            simp [get_workflow_steps]
  | nav step =>
      simp only [applyOp]
      cases hg : go_to_step_route step s with
      | none => exact ⟨hsub, hcur⟩
      | some s2 =>
          obtain ⟨rfl, hmem⟩ := go_to_step_route_some hg
          exact ⟨hsub, hmem⟩
  | reset_op now =>
      refine ⟨by simp [applyOp, reset], ?_⟩
      simp [applyOp, reset, get_initial_step, get_workflow_steps]
  | edit_field now e =>
      simp only [applyOp]
      rw [CatalogInv, update_field_completed, update_field_current_step]
      exact ⟨hsub, hcur⟩
  | clear_item idx =>
      simp only [applyOp]
      rw [CatalogInv, (clear_line_item_fields idx s).1, (clear_line_item_fields idx s).2.1]
      exact ⟨hsub, hcur⟩
  | clear_all => exact ⟨hsub, hcur⟩

/-- Fold an invariant through a sequence of operations. -/
theorem applyOps_inv {Item : Type} {P : InvoiceWorkflowSession Item → Prop}
    {Q : Op Item → Prop}
    (hstep : ∀ s op, Q op → P s → P (applyOp op s)) :
    ∀ (ops : List (Op Item)) (s : InvoiceWorkflowSession Item),
      (∀ op ∈ ops, Q op) → P s → P (applyOps ops s) := by
  intro ops
  induction ops with
  | nil => exact fun s _ hP => hP
  | cons op rest ih =>
      intro s hQ hP
      exact ih _ (fun o ho => hQ o (List.mem_cons_of_mem _ ho))
        (hstep s op (hQ op (List.mem_cons_self _ _)) hP)

theorem lookup_none_of_not_key {α : Type} {x : String} {l : List (String × α)}
    (h : x ∉ l.map Prod.fst) : List.lookup x l = none := by
  induction l with
  | nil => rfl
  | cons hd tl ih =>
      simp only [List.map_cons, List.mem_cons] at h
      push_neg at h
      obtain ⟨h1, h2⟩ := h
      have hb : (x == hd.1) = false := by simpa [beq_iff_eq] using h1
      simp [List.lookup, hb, ih h2]

theorem lookup_filter {α : Type} (p : String × α → Bool) (l : List (String × α))
    (hk : (l.map Prod.fst).Nodup) (x : String) (v : α) :
    List.lookup x (l.filter p) = some v ↔
      (List.lookup x l = some v ∧ p (x, v) = true) := by
  induction l with
  | nil => simp [List.lookup]
  | cons hd tl ih =>
      obtain ⟨k, w⟩ := hd
      simp only [List.map_cons, List.nodup_cons] at hk
      obtain ⟨hknot, hnd⟩ := hk
      by_cases hx : x = k
      · subst hx
        rw [List.filter_cons]
        by_cases hp : p (x, w) = true
        · rw [if_pos hp]
          have hl1 : List.lookup x ((x, w) :: List.filter p tl) = some w := by
            simp [List.lookup]
          have hl2 : List.lookup x ((x, w) :: tl) = some w := by
            simp [List.lookup]
          rw [hl1, hl2]
          constructor
          · intro hv
            injection hv with hv
            subst hv
            exact ⟨rfl, hp⟩
          · rintro ⟨hv, -⟩
            exact hv
        · rw [if_neg hp]
          have hxn : x ∉ (List.filter p tl).map Prod.fst := by
            intro hmm
            apply hknot
            rcases List.mem_map.mp hmm with ⟨⟨a, b⟩, hab, hax⟩
            exact List.mem_map.mpr ⟨(a, b), List.mem_of_mem_filter hab, hax⟩
          rw [lookup_none_of_not_key hxn]
          have hl2 : List.lookup x ((x, w) :: tl) = some w := by
            simp [List.lookup]
          rw [hl2]
          constructor
          · intro hv
            exact absurd hv (by simp)
          · rintro ⟨hv, hpv⟩
            injection hv with hv
            subst hv
            exact absurd hpv hp
      · have hb : (x == k) = false := by simpa [beq_iff_eq] using hx
        rw [List.filter_cons]
        have h2 : List.lookup x ((k, w) :: tl) = List.lookup x tl := by
          simp [List.lookup, hb]
        by_cases hp : p (k, w) = true
        · rw [if_pos hp]
          have h1 : List.lookup x ((k, w) :: List.filter p tl) =
              List.lookup x (List.filter p tl) := by
            simp [List.lookup, hb]
          rw [h1, h2]
          exact ih hnd
        · rw [if_neg hp, h2]
          exact ih hnd

theorem applyDeltaContact_completed (d : ContactDelta) (s : ContactWorkflowSession) :
    (applyDeltaContact d s).completed_steps = s.completed_steps := by
  cases d <;> rfl

theorem applyDeltaContact_transcripts (d : ContactDelta) (s : ContactWorkflowSession) :
    (applyDeltaContact d s).transcripts = s.transcripts := by
  cases d <;> rfl

theorem applyDeltaContact_name (d : ContactDelta) (s : ContactWorkflowSession) :
    (applyDeltaContact d s).name =
      match d with
      | .dname n => some n
      | _ => s.name := by
  cases d <;> rfl

theorem applyDeltaContact_email (d : ContactDelta) (s : ContactWorkflowSession) :
    (applyDeltaContact d s).email_address =
      match d with
      | .demail e => some e
      | _ => s.email_address := by
  cases d <;> rfl

theorem applyDeltaContact_address (d : ContactDelta) (s : ContactWorkflowSession) :
    (applyDeltaContact d s).address =
      match d with
      | .daddr a => some a
      | _ => s.address := by
  cases d <;> rfl

theorem contact_store_completed (now : Int) (step : String) (r : ContactParse)
    (t : String) (s : ContactWorkflowSession) :
    (contact_store_step_result now step r t s).completed_steps =
      if (parse_contact_data step r).nonempty then appendIfAbsent step s.completed_steps
      else s.completed_steps := by
  simp only [contact_store_step_result]
  split <;> simp [contact_mark_step_complete, applyDeltaContact_completed]

theorem contact_store_transcripts (now : Int) (step : String) (r : ContactParse)
    (t : String) (s : ContactWorkflowSession) :
    (contact_store_step_result now step r t s).transcripts =
      dictInsert step t s.transcripts := by
  simp only [contact_store_step_result]
  split <;> simp [contact_mark_step_complete, applyDeltaContact_transcripts]

theorem contact_store_name (now : Int) (step : String) (r : ContactParse)
    (t : String) (s : ContactWorkflowSession) :
    (contact_store_step_result now step r t s).name =
      match parse_contact_data step r with
      | .dname n => some n
      | _ => s.name := by
  simp only [contact_store_step_result]
  split <;> simp [contact_mark_step_complete, applyDeltaContact_name]

theorem contact_store_email (now : Int) (step : String) (r : ContactParse)
    (t : String) (s : ContactWorkflowSession) :
    (contact_store_step_result now step r t s).email_address =
      match parse_contact_data step r with
      | .demail e => some e
      | _ => s.email_address := by
  simp only [contact_store_step_result]
  split <;> simp [contact_mark_step_complete, applyDeltaContact_email]

theorem contact_store_address (now : Int) (step : String) (r : ContactParse)
    (t : String) (s : ContactWorkflowSession) :
    (contact_store_step_result now step r t s).address =
      match parse_contact_data step r with
      | .daddr a => some a
      | _ => s.address := by
  simp only [contact_store_step_result]
  split <;> simp [contact_mark_step_complete, applyDeltaContact_address]

/-! ### Claim theorems -/

/-- C1 (amended): starting from a fresh session, for every sequence of
workflow operations the session's `completed_steps` list contains no
duplicate step id; and, provided every explicit confirmation names a
step of the active step list, every step id in `completed_steps` belongs
to the active step list. (As stated over arbitrary operation sequences
the subset half is false: `confirm_step` appends its caller-supplied
step id without validating it — see the counterexample.) -/
theorem c1_completed_steps_invariant (Item : Type) (ops : List (Op Item))
    (sid? : Option String) (freshId : String) (now0 : Int) :
    (applyOps ops (initInvoiceSession Item sid? freshId now0)).completed_steps.Nodup
    ∧ ((∀ op ∈ ops, confirm_in_catalog op = true) →
        ∀ x ∈ (applyOps ops (initInvoiceSession Item sid? freshId now0)).completed_steps,
          x ∈ get_workflow_steps) := by
  constructor
  · exact applyOps_inv (P := fun s => s.completed_steps.Nodup) (Q := fun _ => True)
      (fun s op _ h => applyOp_nodup op s h) ops _ (fun _ _ => trivial)
      (by simp [initInvoiceSession])
  · intro hops
    have hinv := applyOps_inv (P := CatalogInv)
      (Q := fun op => confirm_in_catalog op = true)
      (fun s op hq h => applyOp_catalog op s hq h) ops
      (initInvoiceSession Item sid? freshId now0) hops
      ⟨by simp [initInvoiceSession], by
        simp [initInvoiceSession, get_initial_step, get_workflow_steps]⟩
    exact hinv.1

/-- C1 witness: a confirmation naming the catalog step `contact_name`
keeps `completed_steps` inside the catalog. -/
theorem c1_witness :
    (∀ op ∈ ([Op.confirm 1 (some "contact_name")] : List (Op Nat)),
      confirm_in_catalog op = true)
    ∧ ∀ x ∈ (applyOps [Op.confirm 1 (some "contact_name")]
        (initInvoiceSession Nat (some "s1") "u" 0)).completed_steps,
        x ∈ get_workflow_steps :=
  ⟨by decide,
   (c1_completed_steps_invariant Nat [Op.confirm 1 (some "contact_name")]
      (some "s1") "u" 0).2 (by decide)⟩

/-- C1 counterexample: a single `/confirm-step` request naming the
out-of-catalog id `line_item_confirm` (which the handler appends without
validation) puts a step outside the active step list into
`completed_steps`, refuting the subset half of the claim as stated. -/
theorem c1_counterexample :
    "line_item_confirm" ∈
      (applyOps [Op.confirm 1 (some "line_item_confirm")]
        (initInvoiceSession Nat (some "s1") "u" 0)).completed_steps
    ∧ "line_item_confirm" ∉ get_workflow_steps := by decide

/-- C2 (amended): the `go_to_step` route succeeds exactly when the
target is in the active step list and is a completed step, the current
step, or `line_item` while `invoice_data["line_items"]` is nonempty
(`len` positive — normally committed items exist); a successful
navigation updates only `current_step`; a target outside the active
step list is always rejected. (The special `line_item` case refutes the
claim's "never more than one position ahead" clause — see the
counterexample.) -/
theorem c2_go_to_step_characterization {Item : Type} (step : String)
    (s : InvoiceWorkflowSession Item) :
    ((go_to_step_route step s).isSome ↔
      step ∈ get_workflow_steps ∧
        ((step = "line_item" ∧ s.line_items.length ≠ 0) ∨ step ∈ s.completed_steps ∨
          step = s.current_step))
    ∧ (∀ s2, go_to_step_route step s = some s2 →
        s2.current_step = step ∧ s2.completed_steps = s.completed_steps
          ∧ s2.line_items = s.line_items)
    ∧ (step ∉ get_workflow_steps → go_to_step_route step s = none) := by
  have hempty : (s.line_items.truthy = true) ↔ s.line_items.length ≠ 0 := by
    cases s.line_items with
    | list l => cases l <;> simp [ListVal.truthy, ListVal.length]
    | str str =>
        obtain ⟨d⟩ := str
        cases d <;> simp [ListVal.truthy, ListVal.length]
  unfold go_to_step_route
  by_cases hmem : step ∈ get_workflow_steps
  · rw [if_neg (fun hcon => hcon hmem)]
    by_cases hcan : (step = "line_item" ∧ s.line_items.truthy = true) ∨
        step ∈ s.completed_steps ∨ step = s.current_step
    · rw [if_pos hcan]
      refine ⟨?_, ?_, ?_⟩
      · simp only [Option.isSome_some, true_iff]
        refine ⟨hmem, ?_⟩
        rcases hcan with ⟨h1, h2⟩ | hc | hc
        · exact Or.inl ⟨h1, hempty.mp h2⟩
        · exact Or.inr (Or.inl hc)
        · exact Or.inr (Or.inr hc)
      · intro s2 h2
        simp only [Option.some.injEq] at h2
        subst h2
        exact ⟨rfl, rfl, rfl⟩
      · intro hbad
        exact absurd hmem hbad
    · rw [if_neg hcan]
      refine ⟨?_, ?_, ?_⟩
      · simp only [Option.isSome_none, Bool.false_eq_true, false_iff]
        rintro ⟨-, hor⟩
        apply hcan
        rcases hor with ⟨h1, h2⟩ | hc | hc
        · exact Or.inl ⟨h1, hempty.mpr h2⟩
        · exact Or.inr (Or.inl hc)
        · exact Or.inr (Or.inr hc)
      · intro s2 h2
        exact absurd h2 (by simp)
      · intro _
        rfl
  · rw [if_pos hmem]
    refine ⟨?_, ?_, ?_⟩
    · simp only [Option.isSome_none, Bool.false_eq_true, false_iff]
      rintro ⟨hm, -⟩
      exact hmem hm
    · intro s2 h2
      exact absurd h2 (by simp)
    · intro _
      rfl

/-- C2 witness: a target outside the active step list is rejected. -/
theorem c2_witness :
    go_to_step_route "bogus" (initInvoiceSession Nat (some "sw") "u" 0) = none :=
  (c2_go_to_step_characterization "bogus" _).2.2 (by decide)

/-- C2 counterexample: after three confirmations, a line-item parse, an
"add another" commit and a legal navigation back to `welcome`, the
session has `current_step = "welcome"` and `line_item` (three positions
ahead) not in `completed_steps`, yet `go_to_step` to `line_item`
succeeds — refuting the claim as stated. -/
theorem c2_counterexample :
    (go_to_step_route "line_item"
      (applyOps [Op.confirm 1 none, Op.confirm 2 none, Op.confirm 3 none,
        Op.submit_step 4 "line_item" (InvoiceParse.line_item 42) "t",
        Op.confirm_item true, Op.nav "welcome"]
        (initInvoiceSession Nat (some "s2") "u" 0))).isSome = true
    ∧ "line_item" ∉
        (applyOps [Op.confirm 1 none, Op.confirm 2 none, Op.confirm 3 none,
          Op.submit_step 4 "line_item" (InvoiceParse.line_item 42) "t",
          Op.confirm_item true, Op.nav "welcome"]
          (initInvoiceSession Nat (some "s2") "u" 0)).completed_steps
    ∧ (applyOps [Op.confirm 1 none, Op.confirm 2 none, Op.confirm 3 none,
          Op.submit_step 4 "line_item" (InvoiceParse.line_item 42) "t",
          Op.confirm_item true, Op.nav "welcome"]
          (initInvoiceSession Nat (some "s2") "u" 0)).current_step = "welcome"
    ∧ get_workflow_steps.indexOf "line_item" >
        get_workflow_steps.indexOf
          (applyOps [Op.confirm 1 none, Op.confirm 2 none, Op.confirm 3 none,
            Op.submit_step 4 "line_item" (InvoiceParse.line_item 42) "t",
            Op.confirm_item true, Op.nav "welcome"]
            (initInvoiceSession Nat (some "s2") "u" 0)).current_step + 1 := by decide

/-- C3: a successful `line_item` parse stores the item into the pending
slot (not the committed list), sets the pending flag, and does not touch
`completed_steps`; the explicit proceed-to-review decision commits the
pending item, marks `line_item` complete exactly once (whatever the
number of prior loop iterations), clears the pending flag and moves to
`review`. -/
theorem c3_line_item_two_phase {Item : Type} (now : Int) (item : Item) (t : String)
    (s : InvoiceWorkflowSession Item) :
    ((store_step_result now "line_item" (InvoiceParse.line_item item) t s).line_items =
        s.line_items
      ∧ (store_step_result now "line_item" (InvoiceParse.line_item item) t s).current_line_item =
          some (SlotVal.item item)
      ∧ (store_step_result now "line_item" (InvoiceParse.line_item item) t s).has_pending_item =
          true
      ∧ (store_step_result now "line_item" (InvoiceParse.line_item item) t s).completed_steps =
          s.completed_steps)
    ∧ (∀ (i : Item) (l : List (SlotVal Item)),
        s.current_line_item = some (SlotVal.item i) → s.line_items = ListVal.list l →
        l.length < s.max_line_items →
        ∃ s2, confirm_line_item false s = Except.ok s2
          ∧ s2.line_items = ListVal.list (l ++ [SlotVal.item i])
          ∧ s2.current_step = "review"
          ∧ s2.has_pending_item = false
          ∧ "line_item" ∈ s2.completed_steps
          ∧ (s.completed_steps.count "line_item" ≤ 1 →
              s2.completed_steps.count "line_item" = 1)) := by
  have hd : parse_invoice_data "line_item" (InvoiceParse.line_item item) =
      InvoiceDelta.ditem item := rfl
  constructor
  · refine ⟨?_, ?_, ?_, ?_⟩
    · rw [store_line_items]
    · rw [store_current_line_item, hd]
    · rw [store_has_pending, hd]
      rw [if_pos ⟨rfl, rfl⟩]
    · rw [store_completed, hd]
      rw [if_neg (by simp)]
  · intro i l hcur hlist hlt
    unfold confirm_line_item
    rw [hcur]
    dsimp only [SlotVal.truthy]
    rw [if_pos rfl]
    unfold add_line_item
    rw [hlist]
    dsimp only
    rw [if_neg (by omega)]
    dsimp only
    rw [if_neg (by simp)]
    refine ⟨_, rfl, rfl, rfl, rfl, ?_, ?_⟩
    · exact mem_appendIfAbsent_self _ _
    · intro hcount
      exact appendIfAbsent_count hcount

/-- C3 witness: committing the pending item `7` from a session at
`line_item` yields a one-item invoice at `review` with `line_item`
completed exactly once. -/
theorem c3_witness :
    ∃ s2, confirm_line_item false sessionWithPending = Except.ok s2
      ∧ s2.line_items = ListVal.list ([] ++ [SlotVal.item 7])
      ∧ s2.current_step = "review"
      ∧ s2.has_pending_item = false
      ∧ "line_item" ∈ s2.completed_steps
      ∧ (sessionWithPending.completed_steps.count "line_item" ≤ 1 →
          s2.completed_steps.count "line_item" = 1) :=
  (c3_line_item_two_phase 1 7 "t" sessionWithPending).2 7 [] rfl rfl (by decide)

/-- C4: committing a line item when the committed list already holds the
10-item maximum raises the capacity `ValueError`, and the surrounding
commit handler leaves the session unchanged; an accepted commit never
pushes the list beyond 10 items. -/
theorem c4_line_item_capacity {Item : Type} (s : InvoiceWorkflowSession Item)
    (item : Item) (b : Bool)
    (hmax : s.max_line_items = 10) (hlen : s.line_items.length = 10) :
    add_line_item (SlotVal.item item) s = Except.error "Maximum 10 line items allowed"
    ∧ (s.current_line_item = some (SlotVal.item item) →
        applyOp (Op.confirm_item b) s = s)
    ∧ ∀ (s2 : InvoiceWorkflowSession Item) (i2 : SlotVal Item)
        (r2 : InvoiceWorkflowSession Item),
        s2.max_line_items = 10 → add_line_item i2 s2 = Except.ok r2 →
        r2.line_items.length ≤ 10 := by
  have herr : add_line_item (SlotVal.item item) s =
      Except.error "Maximum 10 line items allowed" := by
    unfold add_line_item
    cases hsl : s.line_items with
    | list l =>
        rw [hsl] at hlen
        simp only [ListVal.length] at hlen
        dsimp only
        rw [if_pos (by omega), hmax]
        rfl
    | str str =>
        rw [hsl] at hlen
        simp only [ListVal.length] at hlen
        dsimp only
        rw [if_pos (by omega), hmax]
        rfl
  refine ⟨herr, ?_, ?_⟩
  · intro hcur
    have hcl : confirm_line_item b s = Except.error "Maximum 10 line items allowed" := by
      unfold confirm_line_item
      rw [hcur]
      dsimp only [SlotVal.truthy]
      rw [if_pos rfl, herr]
    simp only [applyOp, hcl]
  · intro s2 i2 r2 hm2 hok
    unfold add_line_item at hok
    cases hsl : s2.line_items with
    | list l =>
        rw [hsl] at hok
        dsimp only at hok
        split at hok
        · exact absurd hok (by simp)
        · rename_i hlt
          injection hok with hok
          subst hok
          simp only [ListVal.length, List.length_append, List.length_singleton]
          omega
    | str str =>
        rw [hsl] at hok
        dsimp only at hok
        split at hok <;> exact absurd hok (by simp)

/-- C4 witness: the eleventh commit on a full session fails with the
capacity error and the commit handler leaves the session unchanged. -/
theorem c4_witness :
    add_line_item (SlotVal.item 99) sessionAtCapacity =
      Except.error "Maximum 10 line items allowed"
    ∧ applyOp (Op.confirm_item false) sessionAtCapacity = sessionAtCapacity :=
  ⟨(c4_line_item_capacity sessionAtCapacity 99 false rfl rfl).1,
   (c4_line_item_capacity sessionAtCapacity 99 false rfl rfl).2.1 rfl⟩

/-- C5: `advance_step` returns the same step and leaves the session
unchanged while `line_item` has a pending item; otherwise it moves to
the next step of the ordered list and returns it; on the final step
(`complete`) it returns `none` and leaves the session unchanged. -/
theorem c5_advance_step_spec {Item : Type} (now : Int) (s : InvoiceWorkflowSession Item) :
    (s.current_step = "line_item" → s.has_pending_item = true →
      advance_step now s = (s, some s.current_step))
    ∧ (¬ (s.current_step = "line_item" ∧ s.has_pending_item = true) →
        s.current_step ∈ get_workflow_steps → s.current_step ≠ "complete" →
        advance_step now s =
          ({ s with
              current_step :=
                get_workflow_steps.getD (get_workflow_steps.indexOf s.current_step + 1)
                  s.current_step,
              updated_at := now },
            some (get_workflow_steps.getD
              (get_workflow_steps.indexOf s.current_step + 1) s.current_step)))
    ∧ (s.current_step = "complete" → advance_step now s = (s, none)) := by
  refine ⟨fun h1 h2 => advance_pending_stay now s h1 h2, ?_, ?_⟩
  · intro hno hmem hne
    have hidx : get_workflow_steps.indexOf s.current_step < get_workflow_steps.length - 1 := by
      simp only [get_workflow_steps, List.mem_cons, List.not_mem_nil, or_false] at hmem
      rcases hmem with hs | hs | hs | hs | hs | hs | hs <;>
        first
          | (exact absurd hs hne)
          | (rw [hs]; decide)
    unfold advance_step
    rw [if_neg hno]
    unfold advance_step_base
    dsimp only
    rw [if_pos hidx]
  · intro hc
    unfold advance_step
    rw [if_neg (by rintro ⟨h1, -⟩; rw [hc] at h1; exact absurd h1 (by decide))]
    unfold advance_step_base
    dsimp only
    rw [if_neg (by rw [hc]; decide)]

/-- C5 witness: on the terminal `complete` step, advance is a no-op
returning `none`. -/
theorem c5_witness :
    advance_step 1 { initInvoiceSession Nat (some "s5") "u" 0 with current_step := "complete" } =
      ({ initInvoiceSession Nat (some "s5") "u" 0 with current_step := "complete" }, none) :=
  (c5_advance_step_spec 1 _).2.2 rfl

/-- C6: a known, unexpired id returns the stored session with
`updated_at` (and the store) unchanged; a known-but-expired or unknown
id yields a fresh initial-state session stored under the same id; and
the reap removes exactly the entries older than 30 minutes. -/
theorem c6_session_store_lifecycle {Item : Type} (now : Int) (sid freshId : String)
    (store : Store Item) (hsid : sid ≠ "") :
    (∀ s, List.lookup sid store = some s → now - s.updated_at ≤ 30 →
        get_invoice_session now (some sid) freshId store = (s, store))
    ∧ (∀ s, List.lookup sid store = some s → now - s.updated_at > 30 →
        get_invoice_session now (some sid) freshId store =
          (initInvoiceSession Item (some sid) freshId now,
            dictInsert sid (initInvoiceSession Item (some sid) freshId now)
              (dictErase sid store))
        ∧ (initInvoiceSession Item (some sid) freshId now).session_id = sid
        ∧ (initInvoiceSession Item (some sid) freshId now).current_step = "welcome"
        ∧ (initInvoiceSession Item (some sid) freshId now).completed_steps = []
        ∧ (initInvoiceSession Item (some sid) freshId now).line_items = ListVal.list []
        ∧ (initInvoiceSession Item (some sid) freshId now).updated_at = now
        ∧ List.lookup sid
            (dictInsert sid (initInvoiceSession Item (some sid) freshId now)
              (dictErase sid store)) =
            some (initInvoiceSession Item (some sid) freshId now))
    ∧ (List.lookup sid store = none →
        get_invoice_session now (some sid) freshId store =
          (initInvoiceSession Item (some sid) freshId now,
            dictInsert (initInvoiceSession Item (some sid) freshId now).session_id
              (initInvoiceSession Item (some sid) freshId now) store)
        ∧ List.lookup sid
            (dictInsert (initInvoiceSession Item (some sid) freshId now).session_id
              (initInvoiceSession Item (some sid) freshId now) store) =
            some (initInvoiceSession Item (some sid) freshId now))
    ∧ ((store.map Prod.fst).Nodup →
        ∀ sid2 s2, List.lookup sid2 (cleanup_expired_sessions now store).1 = some s2 ↔
          (List.lookup sid2 store = some s2 ∧ now - s2.updated_at ≤ 30)) := by
  have hfs : (initInvoiceSession Item (some sid) freshId now).session_id = sid := by
    simp [initInvoiceSession, hsid]
  refine ⟨?_, ?_, ?_, ?_⟩
  · intro s hlk hfresh
    unfold get_invoice_session
    dsimp only
    rw [if_pos hsid, hlk]
    dsimp only
    rw [if_neg (by omega)]
  · intro s hlk hexp
    refine ⟨?_, hfs, rfl, rfl, rfl, rfl, dictInsert_lookup_self _ _ _⟩
    unfold get_invoice_session
    dsimp only
    rw [if_pos hsid, hlk]
    dsimp only
    rw [if_pos hexp]
  · intro hlk
    refine ⟨?_, ?_⟩
    · unfold get_invoice_session
      dsimp only
      rw [if_pos hsid, hlk]
    · rw [hfs]
      exact dictInsert_lookup_self _ _ _
  · intro hnd sid2 s2
    unfold cleanup_expired_sessions
    dsimp only
    rw [lookup_filter _ _ hnd]
    constructor
    · rintro ⟨h1, h2⟩
      simp only [decide_eq_true_eq] at h2
      exact ⟨h1, by omega⟩
    · rintro ⟨h1, h2⟩
      refine ⟨h1, ?_⟩
      simp only [decide_eq_true_eq]
      omega

/-- C6 witness: looking up a ten-minute-old session returns it with the
store untouched. -/
theorem c6_witness :
    get_invoice_session 10 (some "sid") "u"
        [("sid", initInvoiceSession Nat (some "sid") "u" 0)] =
      (initInvoiceSession Nat (some "sid") "u" 0,
        [("sid", initInvoiceSession Nat (some "sid") "u" 0)]) :=
  (c6_session_store_lifecycle 10 "sid" "u"
      [("sid", initInvoiceSession Nat (some "sid") "u" 0)] (by decide)).1
    _ rfl (by decide)

/-- C7: re-submitting voice input for an already-completed contact step
overwrites the stored transcript (last write wins) and updates the draft
field, while `completed_steps` is left entirely unchanged. -/
theorem c7_resubmit_idempotent (now : Int) (step : String) (r : ContactParse)
    (t : String) (s : ContactWorkflowSession) (h : step ∈ s.completed_steps) :
    (contact_store_step_result now step r t s).completed_steps = s.completed_steps
    ∧ List.lookup step (contact_store_step_result now step r t s).transcripts = some t
    ∧ (∀ n, step = "name" → r = ContactParse.name n →
        (contact_store_step_result now step r t s).name = some n)
    ∧ (∀ e, step = "email" → r = ContactParse.email e →
        (contact_store_step_result now step r t s).email_address = some e)
    ∧ (∀ l c p co, step = "address" → r = ContactParse.address l c p co →
        (contact_store_step_result now step r t s).address = some ⟨l, c, p, co⟩) := by
  refine ⟨?_, ?_, ?_, ?_, ?_⟩
  · rw [contact_store_completed]
    split
    · exact appendIfAbsent_of_mem h
    · rfl
  · rw [contact_store_transcripts]
    exact dictInsert_lookup_self _ _ _
  · rintro n hstep hr
    subst hstep
    subst hr
    rw [contact_store_name]
    rfl
  · rintro e hstep hr
    subst hstep
    subst hr
    rw [contact_store_email]
    rfl
  · rintro l c p co hstep hr
    subst hstep
    subst hr
    rw [contact_store_address]
    rfl

/-- C7 witness: re-submitting the `name` step on a session that already
completed it rewrites the draft name and leaves `completed_steps` as
`["name"]`. -/
theorem c7_witness :
    (contact_store_step_result 1 "name" (ContactParse.name "Acme Ltd") "tr"
      { initContactSession (some "c7") "u" 0 with
        completed_steps := ["name"] }).completed_steps = ["name"]
    ∧ (contact_store_step_result 1 "name" (ContactParse.name "Acme Ltd") "tr"
      { initContactSession (some "c7") "u" 0 with
        completed_steps := ["name"] }).name = some "Acme Ltd" :=
  ⟨(c7_resubmit_idempotent 1 "name" (ContactParse.name "Acme Ltd") "tr"
      { initContactSession (some "c7") "u" 0 with completed_steps := ["name"] }
      (by decide)).1,
   (c7_resubmit_idempotent 1 "name" (ContactParse.name "Acme Ltd") "tr"
      { initContactSession (some "c7") "u" 0 with completed_steps := ["name"] }
      (by decide)).2.2.1 "Acme Ltd" rfl rfl⟩

/-- C8 (amended): for every session reachable from a fresh session by
voice submissions targeting the current step, confirmations, line-item
decisions, field edits and item clearing — but not `go_to_step`
navigation or `reset`, which do not clear the pending state, and not a
field edit naming the reserved `current_line_item` key, which
`update_field`'s catch-all branch writes as a raw string without
touching the flag — the pending flag is set exactly when the pending
item is non-null, and only while `current_step` is `line_item`; and the
pending slot only ever holds a parsed line item. -/
theorem c8_pending_only_on_line_item {Item : Type} (s : InvoiceWorkflowSession Item)
    (h : ReachableNoNav s) :
    s.has_pending_item = s.current_line_item.isSome
    ∧ (s.has_pending_item = true → s.current_step = "line_item")
    ∧ (∀ c, s.current_line_item = some c → ∃ i, c = SlotVal.item i) := by
  induction h with
  | init sid? freshId now => simp [initInvoiceSession]
  | @submit s0 now r t hr ih =>
      obtain ⟨ih1, ih2, ih3⟩ := ih
      refine ⟨?_, ?_, ?_⟩
      · rw [store_has_pending, store_current_line_item]
        cases hd : parse_invoice_data s0.current_step r with
        | ditem i =>
            obtain ⟨hstep, -⟩ := parse_invoice_data_ditem hd
            rw [if_pos ⟨hstep, rfl⟩]
            rfl
        | empty =>
            rw [if_neg (by rintro ⟨-, hbad⟩; simp [InvoiceDelta.isItem] at hbad)]
            exact ih1
        | dcontact n =>
            rw [if_neg (by rintro ⟨-, hbad⟩; simp [InvoiceDelta.isItem] at hbad)]
            exact ih1
        | ddue v =>
            rw [if_neg (by rintro ⟨-, hbad⟩; simp [InvoiceDelta.isItem] at hbad)]
            exact ih1
      · intro hfl
        rw [store_current_step]
        rw [store_has_pending] at hfl
        by_cases hcond : s0.current_step = "line_item" ∧
            (parse_invoice_data s0.current_step r).isItem = true
        · exact hcond.1
        · rw [if_neg hcond] at hfl
          exact ih2 hfl
      · intro c hc
        rw [store_current_line_item] at hc
        cases hd : parse_invoice_data s0.current_step r with
        | ditem i =>
            rw [hd] at hc
            dsimp only at hc
            injection hc with hc
            exact ⟨i, hc.symm⟩
        | empty =>
            rw [hd] at hc
            dsimp only at hc
            exact ih3 c hc
        | dcontact n =>
            rw [hd] at hc
            dsimp only at hc
            exact ih3 c hc
        | ddue v =>
            rw [hd] at hc
            dsimp only at hc
            exact ih3 c hc
  | @confirm s0 now step? hr ih =>
      obtain ⟨ih1, ih2, ih3⟩ := ih
      refine ⟨?_, ?_, ?_⟩
      · rw [confirm_step_has_pending, confirm_step_current_line_item]
        exact ih1
      · intro hfl
        rw [confirm_step_has_pending] at hfl
        exact confirm_step_current_pending now step? (ih2 hfl) hfl
      · intro c hc
        rw [confirm_step_current_line_item] at hc
        exact ih3 c hc
  | @confirm_item s0 b hr ih =>
      obtain ⟨ih1, ih2, ih3⟩ := ih
      simp only [applyOp]
      cases hcl : confirm_line_item b s0 with
      | error e => exact ⟨ih1, ih2, ih3⟩
      | ok s2 =>
          obtain ⟨-, hfl, -, -, hnone, htruthy⟩ := confirm_line_item_ok hcl
          have hitem : s2.current_line_item = none := by
            cases hc0 : s0.current_line_item with
            | none => exact hnone hc0
            | some c =>
                obtain ⟨i, rfl⟩ := ih3 c hc0
                exact htruthy _ hc0 rfl
          refine ⟨by rw [hfl, hitem]; rfl, ?_, ?_⟩
          · intro hbad
            rw [hfl] at hbad
            exact absurd hbad (by simp)
          · intro c hc
            rw [hitem] at hc
            exact absurd hc (by simp)
  | @add_another s0 hr ih =>
      obtain ⟨ih1, ih2, ih3⟩ := ih
      simp only [applyOp]
      cases hcl : add_another_item_route s0 with
      | error e => exact ⟨ih1, ih2, ih3⟩
      | ok s2 =>
          obtain ⟨-, hcs, -, hnone, htruthy⟩ := add_another_item_ok hcl
          have hkey : s2.current_line_item = none ∧ s2.has_pending_item = false := by
            cases hc0 : s0.current_line_item with
            | none =>
                obtain ⟨h1, h2⟩ := hnone hc0
                refine ⟨h1, ?_⟩
                rw [h2]
                rw [hc0] at ih1
                exact ih1
            | some c =>
                obtain ⟨i, rfl⟩ := ih3 c hc0
                exact htruthy _ hc0 rfl
          obtain ⟨hitem, hfl⟩ := hkey
          refine ⟨by rw [hfl, hitem]; rfl, fun _ => hcs, ?_⟩
          intro c hc
          rw [hitem] at hc
          exact absurd hc (by simp)
  | @proceed s0 hr ih =>
      obtain ⟨ih1, ih2, ih3⟩ := ih
      simp only [applyOp]
      cases hcl : proceed_to_review_route s0 with
      | error e => exact ⟨ih1, ih2, ih3⟩
      | ok s2 =>
          obtain ⟨-, hcs, -, hnone, htruthy⟩ := proceed_to_review_ok hcl
          have hkey : s2.current_line_item = none ∧ s2.has_pending_item = false := by
            cases hc0 : s0.current_line_item with
            | none =>
                obtain ⟨h1, h2⟩ := hnone hc0
                refine ⟨h1, ?_⟩
                rw [h2]
                rw [hc0] at ih1
                exact ih1
            | some c =>
                obtain ⟨i, rfl⟩ := ih3 c hc0
                exact htruthy _ hc0 rfl
          obtain ⟨hitem, hfl⟩ := hkey
          refine ⟨by rw [hfl, hitem]; rfl, ?_, ?_⟩
          · intro hbad
            rw [hfl] at hbad
            exact absurd hbad (by simp)
          · intro c hc
            rw [hitem] at hc
            exact absurd hc (by simp)
  | @edit s0 now e hwp hr ih =>
      obtain ⟨ih1, ih2, ih3⟩ := ih
      refine ⟨?_, ?_, ?_⟩
      · rw [update_field_has_pending, update_field_current_line_item now e s0 hwp]
        exact ih1
      · intro hfl
        rw [update_field_current_step]
        rw [update_field_has_pending] at hfl
        exact ih2 hfl
      · intro c hc
        rw [update_field_current_line_item now e s0 hwp] at hc
        exact ih3 c hc
  | @clear_item s0 idx hr ih =>
      obtain ⟨ih1, ih2, ih3⟩ := ih
      obtain ⟨-, hcs, hfl, hitem⟩ := clear_line_item_fields idx s0
      refine ⟨by rw [hfl, hitem]; exact ih1, ?_, ?_⟩
      · intro hbad
        rw [hcs]
        rw [hfl] at hbad
        exact ih2 hbad
      · intro c hc
        rw [hitem] at hc
        exact ih3 c hc
  | @clear_all s0 hr ih =>
      refine ⟨rfl, ?_, ?_⟩
      · intro hbad
        exact absurd hbad (by simp [clear_all_line_items_route])
      · intro c hc
        exact absurd hc (by simp [clear_all_line_items_route])

/-- C8 witness: the invariant instantiated at a fresh session. -/
theorem c8_witness :
    (initInvoiceSession Nat (some "w8") "u" 0).has_pending_item =
        (initInvoiceSession Nat (some "w8") "u" 0).current_line_item.isSome
    ∧ ((initInvoiceSession Nat (some "w8") "u" 0).has_pending_item = true →
        (initInvoiceSession Nat (some "w8") "u" 0).current_step = "line_item")
    ∧ (∀ c, (initInvoiceSession Nat (some "w8") "u" 0).current_line_item = some c →
        ∃ i, c = SlotVal.item i) :=
  c8_pending_only_on_line_item _ (ReachableNoNav.init (some "w8") "u" 0)

/-- C8 counterexample, in two parts. Navigation: after three
confirmations, a `line_item` parse at the current step, and a legal
navigation back to `welcome`, the session still holds a non-null
pending item and a set pending flag while `current_step` is `welcome`.
Field edit: one `update_field` request naming `current_line_item` hits
the catch-all `invoice_data[field_name] = field_value` branch and makes
the pending item non-null (a raw string) with the flag still clear, on
a fresh session at `welcome` — refuting the invariant as stated over
all operation sequences, and its field-edit part even without
navigation. -/
theorem c8_counterexample :
    (applyOps [Op.confirm 1 none, Op.confirm 2 none, Op.confirm 3 none,
      Op.submit_step 4 "line_item" (InvoiceParse.line_item 42) "t",
      Op.nav "welcome"]
      (initInvoiceSession Nat (some "s8") "u" 0)).current_line_item =
        some (SlotVal.item 42)
    ∧ (applyOps [Op.confirm 1 none, Op.confirm 2 none, Op.confirm 3 none,
        Op.submit_step 4 "line_item" (InvoiceParse.line_item 42) "t",
        Op.nav "welcome"]
        (initInvoiceSession Nat (some "s8") "u" 0)).has_pending_item = true
    ∧ (applyOps [Op.confirm 1 none, Op.confirm 2 none, Op.confirm 3 none,
        Op.submit_step 4 "line_item" (InvoiceParse.line_item 42) "t",
        Op.nav "welcome"]
        (initInvoiceSession Nat (some "s8") "u" 0)).current_step = "welcome"
    ∧ (applyOps [Op.edit_field 1 (FieldEdit.simple "current_line_item" "x")]
        (initInvoiceSession Nat (some "s8b") "u" 0)).current_line_item =
          some (SlotVal.str "x")
    ∧ (applyOps [Op.edit_field 1 (FieldEdit.simple "current_line_item" "x")]
        (initInvoiceSession Nat (some "s8b") "u" 0)).has_pending_item = false
    ∧ (applyOps [Op.edit_field 1 (FieldEdit.simple "current_line_item" "x")]
        (initInvoiceSession Nat (some "s8b") "u" 0)).current_step = "welcome" := by decide

/-- C9: a voice submission whose audio payload exceeds 10 MiB fails with
a validation error scoped to the `audio` field, the result does not
depend on the external transcription/extraction collaborators (they are
never invoked), and the session is left unchanged (the route stores
nothing on failure). -/
theorem c9_audio_size_guard {Item : Type} (now : Int) (step : String) (size : Nat)
    (o : VoiceOracle Item) (s : InvoiceWorkflowSession Item)
    (h : size > MAX_AUDIO_SIZE) :
    process_invoice_step_route now step size o s =
      Except.error (PipelineError.validation
        { field := "audio", message := "Failed to transcribe audio. Please try speaking again." })
    ∧ ∀ (o2 : VoiceOracle Item),
        process_invoice_step_route now step size o s =
          process_invoice_step_route now step size o2 s := by
  have hta : ∀ (tr : Except String String),
      transcribe_audio size tr =
        Except.error
          { field := "audio"
            message := "Failed to transcribe audio. Please try speaking again." } := by
    intro tr
    unfold transcribe_audio transcribe_audio_body
    rw [if_pos h]
  have hmain : ∀ (o3 : VoiceOracle Item),
      process_invoice_step_route now step size o3 s =
        Except.error (PipelineError.validation
          { field := "audio"
            message := "Failed to transcribe audio. Please try speaking again." }) := by
    intro o3
    unfold process_invoice_step_route process_voice_step
    rw [hta]
  exact ⟨hmain o, fun o2 => by rw [hmain o, hmain o2]⟩

/-- C9 witness: a payload one byte over the limit is rejected with the
audio-scoped error before any collaborator call. -/
theorem c9_witness :
    process_invoice_step_route 0 "contact_name" (MAX_AUDIO_SIZE + 1) oracleWitness
        (initInvoiceSession Nat (some "s9") "u" 0) =
      Except.error (PipelineError.validation
        { field := "audio",
          message := "Failed to transcribe audio. Please try speaking again." }) :=
  (c9_audio_size_guard 0 "contact_name" (MAX_AUDIO_SIZE + 1) oracleWitness
    (initInvoiceSession Nat (some "s9") "u" 0) (Nat.lt_succ_self _)).1

/-- C10: with a (non-empty) bearer token present, credential resolution
is independent of the cookie session and returns `none` whenever the
token is invalid, the machine session is missing, or it lacks the
requested credential; the cookie session is consulted only when no
bearer token is present. -/
theorem c10_bearer_no_cookie_fallback (st : AuthState) (h : Option String) :
    (∀ t, extract_bearer_token h = some t → t ≠ "" →
      (∀ ck cx,
          get_openai_api_key { st with cookie_api_key := ck, cookie_xero_token := cx } h =
            get_openai_api_key st h
          ∧ get_xero_token { st with cookie_api_key := ck, cookie_xero_token := cx } h =
              get_xero_token st h)
      ∧ (st.validate t = none →
          get_openai_api_key st h = none ∧ get_xero_token st h = none)
      ∧ (∀ sid, st.validate t = some sid → List.lookup sid st.mobile_sessions = none →
          get_openai_api_key st h = none ∧ get_xero_token st h = none)
      ∧ (∀ sid ms, st.validate t = some sid →
          List.lookup sid st.mobile_sessions = some ms →
          (ms.openai_api_key = none → get_openai_api_key st h = none)
          ∧ (ms.xero_token = none → get_xero_token st h = none)))
    ∧ (extract_bearer_token h = none →
        get_openai_api_key st h = st.cookie_api_key
        ∧ get_xero_token st h = st.cookie_xero_token) := by
  constructor
  · intro t hext ht
    refine ⟨?_, ?_, ?_, ?_⟩
    · intro ck cx
      constructor
      · unfold get_openai_api_key
        rw [hext]
        dsimp only
        rw [if_pos ht, if_pos ht]
      · unfold get_xero_token
        rw [hext]
        dsimp only
        rw [if_pos ht, if_pos ht]
    · intro hv
      constructor
      · unfold get_openai_api_key
        rw [hext]
        dsimp only
        rw [if_pos ht, hv]
      · unfold get_xero_token
        rw [hext]
        dsimp only
        rw [if_pos ht, hv]
    · intro sid hv hlk
      constructor
      · unfold get_openai_api_key
        rw [hext]
        dsimp only
        rw [if_pos ht, hv]
        dsimp only
        rw [hlk]
      · unfold get_xero_token
        rw [hext]
        dsimp only
        rw [if_pos ht, hv]
        dsimp only
        rw [hlk]
    · intro sid ms hv hlk
      constructor
      · intro hk
        unfold get_openai_api_key
        rw [hext]
        dsimp only
        rw [if_pos ht, hv]
        dsimp only
        rw [hlk]
        dsimp only
        rw [hk]
      · intro hx
        unfold get_xero_token
        rw [hext]
        dsimp only
        rw [if_pos ht, hv]
        dsimp only
        rw [hlk]
        dsimp only
        rw [hx]
  · intro hext
    constructor
    · unfold get_openai_api_key
      rw [hext]
    · unfold get_xero_token
      rw [hext]

/-- C10 witness: a valid bearer token whose machine session lacks both
credentials resolves to `none` even though the cookie session holds
both. -/
theorem c10_witness :
    get_openai_api_key authStateWitness (some "Bearer tok") = none
    ∧ get_xero_token authStateWitness (some "Bearer tok") = none :=
  ⟨((c10_bearer_no_cookie_fallback authStateWitness (some "Bearer tok")).1 "tok"
      (by decide) (by decide)).2.2.2 "m" { xero_token := none, openai_api_key := none }
      rfl rfl |>.1 rfl,
   ((c10_bearer_no_cookie_fallback authStateWitness (some "Bearer tok")).1 "tok"
      (by decide) (by decide)).2.2.2 "m" { xero_token := none, openai_api_key := none }
      rfl rfl |>.2 rfl⟩

end VoiceToXero
